import Mathlib

/-!
Verification of the `myblendercontrib` add-on collection.

This file shallowly embeds the Python source of the repository:
* `object_print3d_utils/mesh_helpers.py` — volume/area computation,
  self-intersection and thickness checks, triangle point sampling;
* `oscurart_tools/oscurart_meshes.py` — the symmetry-map construction
  (`reSymSave`), its application (`reSymMesh`), the vertex-group
  resymmetrization operator and the import/export operators;
* `script_auto_complete/ui.py` — the modal autocomplete operator.

Machine floats are embedded as exact rationals (the operations the claims
depend on — comparison, negation, equality — are exact on floats, so `ℚ`
is a faithful carrier).  Python exceptions are embedded with `Except`:
a raising call makes the rest of the straight-line Python body unreachable,
which the `Except`-match translation mirrors exactly.  Host (`bpy`) services
such as `ray_cast` are parameters of the embedded functions.
-/

/-- Python exception kinds raised by the embedded code paths. -/
inductive PyErr where
  | ioError
  | parseError
  | indexError
  | keyError
  | nameError
  | typeError
deriving DecidableEq, Repr

/-- Coordinate triple; embeds `mathutils.Vector((x, y, z))`. -/
abbrev Vec3 : Type := ℚ × ℚ × ℚ

/-- `p1.dot(p2)` on 3-vectors. -/
def dot (a b : Vec3) : ℚ := a.1 * b.1 + a.2.1 * b.2.1 + a.2.2 * b.2.2

/-- `p1.cross(p2)` on 3-vectors. -/
def cross (a b : Vec3) : Vec3 :=
  (a.2.1 * b.2.2 - a.2.2 * b.2.1,
   a.2.2 * b.1 - a.1 * b.2.2,
   a.1 * b.2.1 - a.2.1 * b.1)

/-- Component-wise subtraction, `v - w`. -/
def vsub (a b : Vec3) : Vec3 := (a.1 - b.1, a.2.1 - b.2.1, a.2.2 - b.2.2)

/-- Component-wise addition, `v + w`. -/
def vadd (a b : Vec3) : Vec3 := (a.1 + b.1, a.2.1 + b.2.1, a.2.2 + b.2.2)

/-- Scalar multiplication `t * v`. -/
def vsmul (t : ℚ) (a : Vec3) : Vec3 := (t * a.1, t * a.2.1, t * a.2.2)

/-- Squared euclidean norm of a 3-vector. -/
def normSq (a : Vec3) : ℚ := dot a a

/-- `tri_signed_volume(p1, p2, p3)` from `bmesh_calc_volume`
(mesh_helpers.py, line 87): `p1.dot(p2.cross(p3)) / 6.0`. -/
def tri_signed_volume (p1 p2 p3 : Vec3) : ℚ := dot p1 (cross p2 p3) / 6

/-- `bmesh_calc_volume(bm)` (mesh_helpers.py, lines 83-90): the absolute
value of the sum of `tri_signed_volume` over the (triangular) faces. -/
def bmesh_calc_volume (faces : List (Vec3 × Vec3 × Vec3)) : ℚ :=
  |(faces.map (fun f => tri_signed_volume f.1 f.2.1 f.2.2)).sum|

/-- `bmesh_calc_area(bm)` (mesh_helpers.py, lines 93-97): the sum of
`f.calc_area()` over the faces.  `calc_area` is a host (`bpy`) service, so
it is a parameter here; `IsTriAreaFn` pins down its meaning on triangles. -/
def bmesh_calc_area (calcArea : Vec3 → Vec3 → Vec3 → ℝ) (faces : List (Vec3 × Vec3 × Vec3)) : ℝ :=
  (faces.map (fun f => calcArea f.1 f.2.1 f.2.2)).sum

/-- The host's `f.calc_area()` on a triangle is half the euclidean norm of
the cross product of two side vectors: it is nonnegative and its square is
`‖(b-a) × (c-a)‖² / 4`. -/
def IsTriAreaFn (A : Vec3 → Vec3 → Vec3 → ℝ) : Prop :=
  ∀ a b c : Vec3, 0 ≤ A a b c ∧ (A a b c) ^ 2 = (normSq (cross (vsub b a) (vsub c a)) : ℝ) / 4

/-- The eight corners of the axis-aligned unit cube. -/
def cubeV : ℕ → Vec3
  | 0 => (0, 0, 0)
  | 1 => (1, 0, 0)
  | 2 => (1, 1, 0)
  | 3 => (0, 1, 0)
  | 4 => (0, 0, 1)
  | 5 => (1, 0, 1)
  | 6 => (1, 1, 1)
  | _ => (0, 1, 1)

/-- A triangulated closed axis-aligned unit cube: 12 triangles, each quad
face split in two, consistently outward-oriented. -/
def cubeFaces : List (Vec3 × Vec3 × Vec3) :=
  [(cubeV 0, cubeV 3, cubeV 2), (cubeV 0, cubeV 2, cubeV 1),
   (cubeV 4, cubeV 5, cubeV 6), (cubeV 4, cubeV 6, cubeV 7),
   (cubeV 0, cubeV 1, cubeV 5), (cubeV 0, cubeV 5, cubeV 4),
   (cubeV 2, cubeV 3, cubeV 7), (cubeV 2, cubeV 7, cubeV 6),
   (cubeV 0, cubeV 4, cubeV 7), (cubeV 0, cubeV 7, cubeV 3),
   (cubeV 1, cubeV 2, cubeV 6), (cubeV 1, cubeV 6, cubeV 5)]

lemma triArea_eq_half {A : Vec3 → Vec3 → Vec3 → ℝ} (hA : IsTriAreaFn A)
    (a b c : Vec3) (h : normSq (cross (vsub b a) (vsub c a)) = 1) :
    A a b c = 1 / 2 := by
  obtain ⟨h0, hsq⟩ := hA a b c
  rw [h] at hsq
  have hsq' : (A a b c) ^ 2 = (1 : ℝ) / 4 := by
    rw [hsq]; norm_num
  have hfac : (A a b c - 1 / 2) * (A a b c + 1 / 2) = 0 := by nlinarith
  rcases mul_eq_zero.mp hfac with h1 | h2
  · linarith
  · linarith

/-- C9: for the triangulated closed axis-aligned unit cube,
`bmesh_calc_volume` (absolute value of the summed signed tetrahedron
volumes `p1 ⬝ (p2 × p3) / 6`) returns `1`, and `bmesh_calc_area` (the sum
of the triangle face areas) returns `6`, exactly, under exact rational
arithmetic for the volume and real arithmetic for the areas. -/
theorem unit_cube_volume_and_area :
    bmesh_calc_volume cubeFaces = 1 ∧
      ∀ A : Vec3 → Vec3 → Vec3 → ℝ, IsTriAreaFn A → bmesh_calc_area A cubeFaces = 6 := by
  constructor
  · norm_num [bmesh_calc_volume, cubeFaces, tri_signed_volume, dot, cross, cubeV]
  · intro A hA
    have key : ∀ a b c : Vec3, normSq (cross (vsub b a) (vsub c a)) = 1 → A a b c = 1 / 2 :=
      triArea_eq_half hA
    simp only [bmesh_calc_area, cubeFaces, List.map_cons, List.map_nil, List.sum_cons,
      List.sum_nil]
    rw [key _ _ _ (by norm_num [normSq, cross, vsub, dot, cubeV]),
      key _ _ _ (by norm_num [normSq, cross, vsub, dot, cubeV]),
      key _ _ _ (by norm_num [normSq, cross, vsub, dot, cubeV]),
      key _ _ _ (by norm_num [normSq, cross, vsub, dot, cubeV]),
      key _ _ _ (by norm_num [normSq, cross, vsub, dot, cubeV]),
      key _ _ _ (by norm_num [normSq, cross, vsub, dot, cubeV]),
      key _ _ _ (by norm_num [normSq, cross, vsub, dot, cubeV]),
      key _ _ _ (by norm_num [normSq, cross, vsub, dot, cubeV]),
      key _ _ _ (by norm_num [normSq, cross, vsub, dot, cubeV]),
      key _ _ _ (by norm_num [normSq, cross, vsub, dot, cubeV]),
      key _ _ _ (by norm_num [normSq, cross, vsub, dot, cubeV]),
      key _ _ _ (by norm_num [normSq, cross, vsub, dot, cubeV])]
    norm_num

/-- C9 witness: the area part instantiated with the actual half-cross-norm
area function on triangles. -/
theorem unit_cube_volume_and_area_witness :
    bmesh_calc_area
        (fun a b c => Real.sqrt (normSq (cross (vsub b a) (vsub c a))) / 2) cubeFaces = 6 := by
  apply (unit_cube_volume_and_area).2
  intro a b c
  have hnn : (0 : ℝ) ≤ (normSq (cross (vsub b a) (vsub c a)) : ℝ) := by
    have : (0 : ℚ) ≤ normSq (cross (vsub b a) (vsub c a)) := by
      simp only [normSq, dot]
      exact add_nonneg (add_nonneg (mul_self_nonneg _) (mul_self_nonneg _)) (mul_self_nonneg _)
    exact_mod_cast this
  refine ⟨div_nonneg (Real.sqrt_nonneg _) (by norm_num), ?_⟩
  rw [div_pow, Real.sq_sqrt hnn]
  norm_num

/-!
## `script_auto_complete/ui.py` — the modal autocomplete operator

The module-level `running` flag (ui.py, lines 6-12) and the inputs the
`modal` callback consults (`active_text_block_exists()` and the result of
`self.modal_handler.update(event)`) are parameters; the callback body
(ui.py, lines 36-48) is translated line by line.
-/

/-- Result of a modal call: the returned status token and whether
`self.modal_handler.free()` was invoked. -/
structure ModalResult where
  status : String
  freedHandler : Bool
deriving DecidableEq, Repr

/-- `StartAutoCompletion.modal` (ui.py, lines 36-48).  `running` is the
module-level flag, `activeTextBlock` the value of
`active_text_block_exists()`, `handlerUpdate` the value
`self.modal_handler.update(event)` would return (whether the handler
consumes the event). -/
def StartAutoCompletion_modal (running : Bool) (activeTextBlock : Bool)
    (handlerUpdate : Bool) : ModalResult :=
  if !running then
    { status := "FINISHED", freedHandler := true }
  else
    let block_event := if activeTextBlock then handlerUpdate else false
    if !block_event then { status := "PASS_THROUGH", freedHandler := false }
    else { status := "RUNNING_MODAL", freedHandler := false }

/-- C8: every return value of `StartAutoCompletion.modal` is one of
`FINISHED`, `PASS_THROUGH`, `RUNNING_MODAL`; it returns `FINISHED` exactly
when the global `running` flag is false (and then the modal handler was
freed), and otherwise returns `RUNNING_MODAL` exactly when the handler
consumed the event and `PASS_THROUGH` exactly when it did not. -/
theorem modal_status_contract (running activeTextBlock handlerUpdate : Bool) :
    ((StartAutoCompletion_modal running activeTextBlock handlerUpdate).status = "FINISHED" ∨
      (StartAutoCompletion_modal running activeTextBlock handlerUpdate).status = "PASS_THROUGH" ∨
      (StartAutoCompletion_modal running activeTextBlock handlerUpdate).status = "RUNNING_MODAL") ∧
    ((StartAutoCompletion_modal running activeTextBlock handlerUpdate).status = "FINISHED" ↔
      running = false) ∧
    (running = false →
      (StartAutoCompletion_modal running activeTextBlock handlerUpdate).freedHandler = true) ∧
    (running = true →
      (((StartAutoCompletion_modal running activeTextBlock handlerUpdate).status = "RUNNING_MODAL" ↔
          (activeTextBlock && handlerUpdate) = true) ∧
        ((StartAutoCompletion_modal running activeTextBlock handlerUpdate).status = "PASS_THROUGH" ↔
          (activeTextBlock && handlerUpdate) = false))) := by
  cases running <;> cases activeTextBlock <;> cases handlerUpdate <;>
    simp [StartAutoCompletion_modal]

/-- C8 witness: concrete evaluation of the contract with the flag down. -/
theorem modal_status_contract_witness :
    (StartAutoCompletion_modal false true true).status = "FINISHED" ∧
      (StartAutoCompletion_modal false true true).freedHandler = true :=
  ⟨(modal_status_contract false true true).2.1.mpr rfl,
    (modal_status_contract false true true).2.2.1 rfl⟩

/-!
## `object_print3d_utils/mesh_helpers.py` — self-intersection / thickness
checks and the temporary-object lifecycle

Both checks build a temporary mesh + object, link the object into the
scene, ray-cast, and only then unlink and remove both
(`bmesh_check_self_intersect_object`, lines 127-161, and
`bmesh_check_thick_object`, lines 206-246).  The ray casts and the
face-index mappings are host services, passed as parameters that may
raise; geometry that does not influence the temporaries' lifecycle (the
ray offsets) is folded into the `rayCast` parameter.  `TmpSceneState`
records whether the temporary mesh/object still exist and whether the
object is still linked into the scene after the call.
-/

/-- Lifecycle state of the temporary mesh and object. -/
structure TmpSceneState where
  meshAlive : Bool
  objAlive : Bool
  objLinked : Bool
deriving DecidableEq, Repr

/-- State right after `bpy.data.meshes.new` / `bpy.data.objects.new` /
`scene.objects.link`. -/
def tmpCreated : TmpSceneState := ⟨true, true, true⟩

/-- State after `scene.objects.unlink` / `bpy.data.objects.remove` /
`bpy.data.meshes.remove`. -/
def tmpCleaned : TmpSceneState := ⟨false, false, false⟩

/-- `faces_error.add` — a `set` in the source, embedded as a duplicate-free
list. -/
def addUnique (acc : List ℕ) (x : ℕ) : List ℕ := if x ∈ acc then acc else acc ++ [x]

/-- The per-edge ray-cast loop of `bmesh_check_self_intersect_object`
(mesh_helpers.py, lines 142-157).  `rayCast e` is the `index` component of
`ray_cast(co_1, co_2)` for edge `e` (it may raise); `faceMapIndex` is the
`face_map_index` dict (a failed lookup is a `KeyError`).  A raised
exception aborts the loop and propagates. -/
def selfIntersectLoop (rayCast : ℕ → Except PyErr ℤ) (faceMapIndex : ℤ → Option ℕ) :
    List ℕ → List ℕ → Except PyErr (List ℕ)
  | [], acc => .ok acc
  | e :: rest, acc =>
    match rayCast e with
    | .error err => .error err
    | .ok idx =>
      if idx = -1 then selfIntersectLoop rayCast faceMapIndex rest acc
      else
        match faceMapIndex idx with
        | none => .error .keyError
        | some fi => selfIntersectLoop rayCast faceMapIndex rest (addUnique acc fi)

/-- `bmesh_check_self_intersect_object(obj)` (mesh_helpers.py, lines
100-163), reduced to the temporary-object lifecycle: the temporaries are
created and linked, the edge loop runs, and the `unlink`/`remove` lines
159-161 execute only if the loop finishes without raising (the source has
no `try`/`finally`, so an exception propagates past them). -/
def bmesh_check_self_intersect_object (edges : List ℕ) (rayCast : ℕ → Except PyErr ℤ)
    (faceMapIndex : ℤ → Option ℕ) : Except PyErr (List ℕ) × TmpSceneState :=
  match selfIntersectLoop rayCast faceMapIndex edges [] with
  | .ok faces => (.ok faces, tmpCleaned)
  | .error e => (.error e, tmpCreated)

/-- The inner sample-point loop of `bmesh_check_thick_object`
(mesh_helpers.py, lines 226-239): six random points per face, a backward
ray cast each; on a hit the face itself and the hit face are mapped back
to original indices (`face_map.get` has a default, but the
`face_index_map_org[...]` lookup can raise `KeyError`). -/
def thickFaceLoop (rayCast : ℕ → ℕ → Except PyErr ℤ) (mapSelf : ℕ → Option ℕ)
    (mapHit : ℤ → Option ℕ) (f : ℕ) :
    List ℕ → List ℕ → Except PyErr (List ℕ)
  | [], acc => .ok acc
  | p :: ps, acc =>
    match rayCast f p with
    | .error err => .error err
    | .ok idx =>
      if idx = -1 then thickFaceLoop rayCast mapSelf mapHit f ps acc
      else
        match mapSelf f with
        | none => .error .keyError
        | some o1 =>
          match mapHit idx with
          | none => .error .keyError
          | some o2 => thickFaceLoop rayCast mapSelf mapHit f ps (addUnique (addUnique acc o1) o2)

/-- The per-face loop of `bmesh_check_thick_object` (mesh_helpers.py,
lines 222-239). -/
def thickLoop (rayCast : ℕ → ℕ → Except PyErr ℤ) (mapSelf : ℕ → Option ℕ)
    (mapHit : ℤ → Option ℕ) : List ℕ → List ℕ → Except PyErr (List ℕ)
  | [], acc => .ok acc
  | f :: fs, acc =>
    match thickFaceLoop rayCast mapSelf mapHit f (List.range 6) acc with
    | .error err => .error err
    | .ok acc' => thickLoop rayCast mapSelf mapHit fs acc'

/-- `bmesh_check_thick_object(obj, thickness)` (mesh_helpers.py, lines
191-248), reduced to the temporary-object lifecycle: the cleanup lines
244-246 execute only when the face loop finishes without raising. -/
def bmesh_check_thick_object (faces : List ℕ) (rayCast : ℕ → ℕ → Except PyErr ℤ)
    (mapSelf : ℕ → Option ℕ) (mapHit : ℤ → Option ℕ) :
    Except PyErr (List ℕ) × TmpSceneState :=
  match thickLoop rayCast mapSelf mapHit faces [] with
  | .ok fe => (.ok fe, tmpCleaned)
  | .error e => (.error e, tmpCreated)

/-- C1 counterexample: when the very first ray cast raises, the call to
`bmesh_check_self_intersect_object` ends with the temporary object still
linked and the temporary mesh still alive — the cleanup is skipped on the
exceptional path, contradicting the claim that the temporaries are
unlinked and removed on every execution path. -/
theorem cleanup_skipped_on_raycast_error :
    (bmesh_check_self_intersect_object [0] (fun _ => .error .typeError) (fun _ => none)).1 =
        .error .typeError ∧
      (bmesh_check_self_intersect_object [0] (fun _ => .error .typeError) (fun _ => none)).2 ≠
        tmpCleaned ∧
      (bmesh_check_self_intersect_object [0] (fun _ => .error .typeError) (fun _ => none)).2.objLinked =
        true := by
  refine ⟨rfl, ?_, rfl⟩
  decide

/-- C1 (amended): in `bmesh_check_self_intersect_object` and
`bmesh_check_thick_object` the temporary object and temporary mesh are
unlinked and removed on every invocation that completes normally; an
exception raised partway (by a ray cast or a mapping lookup) propagates
uncaught and skips the cleanup, leaving the temporaries in the scene. -/
theorem cleanup_on_normal_completion
    (edges : List ℕ) (rayCast : ℕ → Except PyErr ℤ) (faceMapIndex : ℤ → Option ℕ)
    (faces : List ℕ) (rayCast2 : ℕ → ℕ → Except PyErr ℤ)
    (mapSelf : ℕ → Option ℕ) (mapHit : ℤ → Option ℕ)
    (h1 : (bmesh_check_self_intersect_object edges rayCast faceMapIndex).1.isOk = true)
    (h2 : (bmesh_check_thick_object faces rayCast2 mapSelf mapHit).1.isOk = true) :
    (bmesh_check_self_intersect_object edges rayCast faceMapIndex).2 = tmpCleaned ∧
      (bmesh_check_thick_object faces rayCast2 mapSelf mapHit).2 = tmpCleaned := by
  constructor
  · unfold bmesh_check_self_intersect_object at h1 ⊢
    rcases hl : selfIntersectLoop rayCast faceMapIndex edges [] with e | v
    · rw [hl] at h1
      simp [Except.isOk, Except.toBool] at h1
    · rfl
  · unfold bmesh_check_thick_object at h2 ⊢
    rcases hl : thickLoop rayCast2 mapSelf mapHit faces [] with e | v
    · rw [hl] at h2
      simp [Except.isOk, Except.toBool] at h2
    · rfl

/-- C1 witness: a run of both checks in which every ray cast succeeds and
misses, evaluated concretely; the temporaries end up cleaned. -/
theorem cleanup_on_normal_completion_witness :
    (bmesh_check_self_intersect_object [0, 1] (fun _ => .ok (-1)) (fun _ => none)).2 = tmpCleaned ∧
      (bmesh_check_thick_object [0] (fun _ _ => .ok (-1)) (fun _ => none) (fun _ => none)).2 =
        tmpCleaned :=
  cleanup_on_normal_completion [0, 1] (fun _ => .ok (-1)) (fun _ => none)
    [0] (fun _ _ => .ok (-1)) (fun _ => none) (fun _ => none) (by decide) (by decide)

/-!
## `oscurart_tools/oscurart_meshes.py` — symmetry map, resym operators,
vertex-group import

Vertices are embedded as the list of their coordinate triples, indexed by
position (the BMesh vertex index).  A Python dict is embedded as an
association list in insertion order; `symapInsert` reproduces dict
assignment (overwrite keeps the key's position, a new key is appended),
and the dict comprehension of `reSymSave` is the corresponding double
fold.  Persisted files are embedded as an optional list of lines (`none`
= the file is missing and `open` raises `IOError`), together with a parse
function standing for `eval` (`none` = the literal is malformed and
`eval` raises).
-/

/-- The `0.0001` threshold used by `reSymSave` (oscurart_meshes.py, lines
257-258). -/
def epsSym : ℚ := 1 / 10000

/-- The dict `L` of `reSymSave` (oscurart_meshes.py, line 257): vertex
index ↦ `[x, y, z]` for every vertex with `co[0] < 0.0001`. -/
def reSymSave_L (m : List Vec3) : List (ℕ × Vec3) :=
  m.enum.filter (fun p => decide (p.2.1 < epsSym))

/-- The dict `R` of `reSymSave` (oscurart_meshes.py, line 258): vertex
index ↦ `[-x, y, z]` for every vertex with `co[0] > -0.0001`. -/
def reSymSave_R (m : List Vec3) : List (ℕ × Vec3) :=
  (m.enum.filter (fun p => decide (-epsSym < p.2.1))).map
    (fun p => (p.1, (-p.2.1, p.2.2.1, p.2.2.2)))

/-- First-match association-list lookup: Python `d[k]` / `k in d`. -/
def alookup : List (ℕ × ℕ) → ℕ → Option ℕ
  | [], _ => none
  | p :: rest, k => if p.1 = k then some p.2 else alookup rest k

/-- Python dict assignment `d[k] = v` on an insertion-ordered association
list: an existing key keeps its position and gets the new value, a new key
is appended. -/
def symapInsert (d : List (ℕ × ℕ)) (k v : ℕ) : List (ℕ × ℕ) :=
  if (alookup d k).isSome then d.map (fun p => if p.1 = k then (k, v) else p)
  else d ++ [(k, v)]

/-- Repeated dict assignment of a list of key/value pairs. -/
def applyIns (d : List (ℕ × ℕ)) (l : List (ℕ × ℕ)) : List (ℕ × ℕ) :=
  l.foldl (fun d p => symapInsert d p.1 p.2) d

/-- The dict comprehension `SYMAP = {VERTL : VERTR for VERTR in R for
VERTL in L if R[VERTR] == L[VERTL]}` of `reSymSave` (oscurart_meshes.py,
line 260): an outer loop over `R` in insertion order, an inner loop over
`L`, assigning `SYMAP[VERTL] = VERTR` on every exact stored-vector
match. -/
def SYMAP (m : List Vec3) : List (ℕ × ℕ) :=
  (reSymSave_R m).foldl
    (fun d pr =>
      (reSymSave_L m).foldl
        (fun d2 pl => if pr.2 = pl.2 then symapInsert d2 pl.1 pr.1 else d2) d)
    []

/-- The key/value pairs assigned by the comprehension, in assignment
order. -/
def insList (m : List Vec3) : List (ℕ × ℕ) :=
  (reSymSave_R m).flatMap
    (fun pr => (reSymSave_L m).filterMap
      (fun pl => if pr.2 = pl.2 then some (pl.1, pr.1) else none))

/-- `(-x, y, z)`: the write performed on the receiving side of a matched
pair in `reSymMesh`. -/
def mirrorX (c : Vec3) : Vec3 := (-c.1, c.2.1, c.2.2)

/-- One iteration of the `for VERT in SYMAP` loops of `reSymMesh`
(oscurart_meshes.py, lines 277-320) on the coordinate list `co` for the
map entry `kv = (VERT, SYMAP[VERT])`.  With side `"+-"` the key vertex is
written from the value vertex; with the other side the value vertex is
written from the key vertex.  With `SELECTED` the entry is skipped unless
the source-side vertex is selected.  Index accesses assume the map's
invariant that its entries name existing vertices (out-of-range writes
would raise `IndexError` in the source). -/
def reSymApply (sel : Bool) (side : String) (flags : List Bool) (co : List Vec3)
    (kv : ℕ × ℕ) : List Vec3 :=
  if side = "+-" then
    if sel && !(flags.getD kv.2 false) then co
    else if kv.1 = kv.2 then
      co.set kv.1 (0, (co.getD kv.2 default).2.1, (co.getD kv.2 default).2.2)
    else co.set kv.1 (mirrorX (co.getD kv.2 default))
  else
    if sel && !(flags.getD kv.1 false) then co
    else if kv.1 = kv.2 then
      co.set kv.2 (0, (co.getD kv.1 default).2.1, (co.getD kv.1 default).2.2)
    else co.set kv.2 (mirrorX (co.getD kv.1 default))

/-- `reSymMesh(self, SELECTED, SIDE)` (oscurart_meshes.py, lines
269-324), after the stored map has been read: the entries are applied
sequentially in map order; vertex selection flags are not modified. -/
def reSymMesh (sel : Bool) (side : String) (symap : List (ℕ × ℕ)) (flags : List Bool)
    (co : List Vec3) : List Vec3 :=
  symap.foldl (reSymApply sel side flags) co

/-- A vertex as the resym-vertex-weights and import operators see it: its
selection flag and its `(group index, weight)` assignments in slot
order. -/
structure VertexInfo where
  select : Bool
  groups : List (ℕ × ℚ)
deriving DecidableEq, Repr, Inhabited

/-- The mutable object state of the vertex-group operators: the vertices,
the active group index, the tool-settings assign weight, and the group
names. -/
structure MeshObjState where
  verts : List VertexInfo
  activeGroup : ℕ
  toolWeight : ℚ
  groupNames : List String
deriving DecidableEq, Repr

/-- `bpy.ops.mesh.select_all(action='DESELECT')`. -/
def deselectAll (vs : List VertexInfo) : List VertexInfo :=
  vs.map (fun v => { v with select := false })

/-- Whether a vertex is assigned to group `g`. -/
def hasGroup (v : VertexInfo) (g : ℕ) : Bool := v.groups.any (fun p => p.1 = g)

/-- `bpy.ops.object.vertex_group_select()`: select every vertex assigned
to the active group. -/
def vertex_group_select (g : ℕ) (vs : List VertexInfo) : List VertexInfo :=
  vs.map (fun v => if hasGroup v g then { v with select := true } else v)

/-- `[VERT.index for VERT in BM.verts[:] if VERT.select]`
(oscurart_meshes.py, line 109). -/
def selectedIndices (vs : List VertexInfo) : List ℕ :=
  (vs.enum.filter (fun p => p.2.select)).map Prod.fst

/-- `for VERT in INL: BM.verts[VERT].select = True` (oscurart_meshes.py,
lines 120-121). -/
def selectVerts (idxs : List ℕ) (vs : List VertexInfo) : List VertexInfo :=
  idxs.foldl
    (fun vs i =>
      match vs[i]? with
      | some v => vs.set i { v with select := true }
      | none => vs)
    vs

/-- `bpy.ops.object.vertex_group_assign(new=False)`: every selected vertex
is assigned to the active group with the tool-settings weight (its
existing entry is overwritten, a missing entry is appended). -/
def assignActive (g : ℕ) (w : ℚ) (vs : List VertexInfo) : List VertexInfo :=
  vs.map (fun v =>
    if v.select then
      if hasGroup v g then
        { v with groups := v.groups.map (fun p => if p.1 = g then (p.1, w) else p) }
      else { v with groups := v.groups ++ [(g, w)] }
    else v)

/-- The slot index left in `EM`/`REC` by the loops
`for i, GRA in enumerate(...groups[:]): if GRA.group == VGACTIVO: EM = i`
(oscurart_meshes.py, lines 124-133): the last matching slot, if any. -/
def lastSlotFor (groups : List (ℕ × ℚ)) (g : ℕ) : Option ℕ :=
  ((groups.enum.filter (fun p => decide (p.2.1 = g))).map Prod.fst).getLast?

/-- Python leaves `EM`/`REC` bound to their previous value when the loop
finds no match; an unbound name raises `NameError` at use. -/
def pickSlot (groups : List (ℕ × ℚ)) (g : ℕ) (prev : Option ℕ) : Option ℕ :=
  match lastSlotFor groups g with
  | some i => some i
  | none => prev

/-- `vertices[VERT].groups[REC].weight = w`: overwrite the weight in slot
`slot`, keeping the group id. -/
def setGroupWeight (v : VertexInfo) (slot : ℕ) (w : ℚ) : VertexInfo :=
  { v with groups := v.groups.set slot ((v.groups.getD slot default).1, w) }

/-- The weight-copy loop of `resymVertexGroups.execute`
(oscurart_meshes.py, lines 124-136): for each `VERT` in `INL`, find the
active-group slot of `SYMAP[VERT]` (`EM`) and of `VERT` (`REC`) — the
names keep their previous binding when no match is found, and raise
`NameError` if still unbound — then copy the weight from `SYMAP[VERT]`'s
slot `EM` into `VERT`'s slot `REC`. -/
def copyWeightsAux (g : ℕ) (symap : List (ℕ × ℕ)) :
    List ℕ → Option ℕ → Option ℕ → List VertexInfo → Except PyErr (List VertexInfo)
  | [], _, _, vs => .ok vs
  | vert :: rest, emPrev, rcPrev, vs =>
    match alookup symap vert with
    | none => .error .keyError
    | some sv =>
      match pickSlot (vs.getD sv default).groups g emPrev,
          pickSlot (vs.getD vert default).groups g rcPrev with
      | some em, some rc =>
        copyWeightsAux g symap rest (some em) (some rc)
          (vs.set vert (setGroupWeight (vs.getD vert default) rc
            ((vs.getD sv default).groups.getD em default).2))
      | some _, none => .error .nameError
      | none, _ => .error .nameError

/-- `INL = [VERT for VERT in SYMAP if SYMAP[VERT] in SELVER if VERT !=
SYMAP[VERT]]` (oscurart_meshes.py, line 118). -/
def INLof (symap : List (ℕ × ℕ)) (selver : List ℕ) : List ℕ :=
  (symap.filter (fun p => decide (p.2 ∈ selver) && decide (p.1 ≠ p.2))).map Prod.fst

/-- The state-transforming body of `resymVertexGroups.execute`
(oscurart_meshes.py, lines 100-142) once the stored map `symap` is in
hand: deselect all, select the active group's vertices, record `SELVER`,
build `INL`, deselect all, select `INL`, assign the active group to the
selection, then run the weight-copy loop.  (In the source the first
selection phase happens just before the file is read; the read touches no
scene state, so the order of the two is immaterial.) -/
def resymVG_core (symap : List (ℕ × ℕ)) (st : MeshObjState) : Except PyErr MeshObjState :=
  let g := st.activeGroup
  let vs2 := vertex_group_select g (deselectAll st.verts)
  let selver := selectedIndices vs2
  let inl := INLof symap selver
  let vs4 := selectVerts inl (deselectAll vs2)
  let vs5 := assignActive g st.toolWeight vs4
  match copyWeightsAux g symap inl none none vs5 with
  | .error e => .error e
  | .ok vs6 => .ok { st with verts := vs6 }

/-- `resymVertexGroups.execute` (oscurart_meshes.py, lines 100-142)
including the unguarded `open` (line 116) and `eval(XML.readlines()[0])`
(line 117): a missing file raises `IOError`, an empty file raises
`IndexError`, a malformed first line raises from `eval`; none of these is
caught. -/
def resymVertexGroups_execute (file : Option (List String))
    (parseMap : String → Option (List (ℕ × ℕ))) (st : MeshObjState) :
    Except PyErr (MeshObjState × String) :=
  match file with
  | none => .error .ioError
  | some [] => .error .indexError
  | some (line0 :: _) =>
    match parseMap line0 with
    | none => .error .parseError
    | some symap =>
      match resymVG_core symap st with
      | .error e => .error e
      | .ok st' => .ok (st', "FINISHED")

/-- `OscResymMesh.execute` → `reSymMesh` (oscurart_meshes.py, lines
269-324, 350-352) including the unguarded `open`/`eval` (lines 275-276):
read the stored map, then apply it to the mesh. -/
def OscResymMesh_execute (file : Option (List String))
    (parseMap : String → Option (List (ℕ × ℕ))) (sel : Bool) (side : String)
    (flags : List Bool) (co : List Vec3) : Except PyErr (List Vec3 × String) :=
  match file with
  | none => .error .ioError
  | some [] => .error .indexError
  | some (line0 :: _) =>
    match parseMap line0 with
    | none => .error .parseError
    | some symap => .ok (reSymMesh sel side symap flags co, "FINISHED")

/-- The group-creation loop of `OscImportVG.execute` (oscurart_meshes.py,
lines 211-213): one `vertex_group_add` per stored name, renaming the new
group. -/
def importAddGroups (names : List String) (st : MeshObjState) : MeshObjState :=
  { st with groupNames := st.groupNames ++ names }

/-- The per-group assignment loop of `OscImportVG.execute`
(oscurart_meshes.py, lines 217-226): for each group, select the vertices
listed in `VERTLISTR[VG.index]` (by their first tuple component) and
assign them to that group with tool weight `1`. -/
def importAssignGroups (vertlistr : List (List (ℕ × ℚ × String))) (st : MeshObjState) :
    MeshObjState :=
  (List.range st.groupNames.length).foldl
    (fun st gi =>
      let idxs := (vertlistr.getD gi []).map Prod.fst
      { st with
        verts := assignActive gi 1 (selectVerts idxs (deselectAll st.verts)),
        activeGroup := gi,
        toolWeight := 1 })
    st

/-- The weight-restore loop of `OscImportVG.execute` (oscurart_meshes.py,
lines 239-240): `vertices[VERT[0]].groups[VERT[1]].weight = VERT[2]`. -/
def importApplyData (data : List (ℕ × ℕ × ℚ)) (st : MeshObjState) : MeshObjState :=
  { st with
    verts := data.foldl
      (fun vs t => vs.set t.1 (setGroupWeight (vs.getD t.1 default) t.2.1 t.2.2))
      st.verts }

/-- `OscImportVG.execute` (oscurart_meshes.py, lines 190-244): two
unguarded `open`/`readlines`/`eval` phases (lines 201-203 and 234-236)
around the group-rebuild loops. -/
def OscImportVG_execute (file1 : Option (List String))
    (parse1 : String → Option (List (List (ℕ × ℚ × String)) × List String))
    (file2 : Option (List String)) (parse2 : String → Option (List (ℕ × ℕ × ℚ)))
    (st : MeshObjState) : Except PyErr (MeshObjState × String) :=
  match file1 with
  | none => .error .ioError
  | some [] => .error .indexError
  | some (line0 :: _) =>
    match parse1 line0 with
    | none => .error .parseError
    | some (vertlistr, grouplist) =>
      let st1 := importAssignGroups vertlistr (importAddGroups grouplist st)
      match file2 with
      | none => .error .ioError
      | some [] => .error .indexError
      | some (data0 :: _) =>
        match parse2 data0 with
        | none => .error .parseError
        | some datapver => .ok (importApplyData datapver st1, "FINISHED")

/-! ### Dictionary lemmas: `alookup`, `symapInsert`, the comprehension -/

lemma alookup_eq_none_iff : ∀ (l : List (ℕ × ℕ)) (k : ℕ),
    alookup l k = none ↔ ∀ v, (k, v) ∉ l
  | [], k => by simp [alookup]
  | (a, b) :: rest, k => by
    by_cases h : a = k
    · constructor
      · intro hnone
        rw [alookup, if_pos h] at hnone
        cases hnone
      · intro hall
        exact absurd (h ▸ List.mem_cons_self (a, b) rest) (hall b)
    · rw [alookup, if_neg h, alookup_eq_none_iff rest k]
      constructor
      · intro hr v hv
        rcases List.mem_cons.mp hv with he | hv'
        · exact h (congrArg Prod.fst he).symm
        · exact hr v hv'
      · intro hall v hv
        exact hall v (List.mem_cons_of_mem _ hv)

lemma mem_of_alookup_eq_some : ∀ (l : List (ℕ × ℕ)) (k v : ℕ),
    alookup l k = some v → (k, v) ∈ l
  | [], k, v => by simp [alookup]
  | (a, b) :: rest, k, v => by
    intro h
    by_cases ha : a = k
    · rw [alookup, if_pos ha] at h
      cases h
      exact ha ▸ List.mem_cons_self _ _
    · rw [alookup, if_neg ha] at h
      exact List.mem_cons_of_mem _ (mem_of_alookup_eq_some rest k v h)

lemma alookup_append : ∀ (l1 l2 : List (ℕ × ℕ)) (k : ℕ),
    alookup (l1 ++ l2) k =
      match alookup l1 k with
      | some v => some v
      | none => alookup l2 k
  | [], l2, k => by simp [alookup]
  | (a, b) :: rest, l2, k => by
    by_cases h : a = k
    · simp [alookup, if_pos h]
    · simp only [List.cons_append, alookup, if_neg h]
      exact alookup_append rest l2 k

lemma alookup_map_update_ne (l : List (ℕ × ℕ)) (k v k' : ℕ) (h : k ≠ k') :
    alookup (l.map (fun p => if p.1 = k then (k, v) else p)) k' = alookup l k' := by
  induction l with
  | nil => simp [alookup]
  | cons p rest ih =>
    rcases p with ⟨a, b⟩
    by_cases ha : a = k
    · subst ha
      simp only [List.map_cons, if_pos rfl, alookup, if_neg h, ih]
      rw [if_neg]
      exact fun hk => h (hk ▸ rfl)
    · simp only [List.map_cons, if_neg ha, alookup, ih]

lemma alookup_map_update_self (l : List (ℕ × ℕ)) (k v : ℕ)
    (h : (alookup l k).isSome = true) :
    alookup (l.map (fun p => if p.1 = k then (k, v) else p)) k = some v := by
  induction l with
  | nil => simp [alookup] at h
  | cons p rest ih =>
    rcases p with ⟨a, b⟩
    by_cases ha : a = k
    · subst ha
      simp [alookup]
    · simp only [alookup, if_neg ha] at h
      simp only [List.map_cons, if_neg ha, alookup, if_neg ha]
      exact ih h

lemma alookup_symapInsert (d : List (ℕ × ℕ)) (k v k' : ℕ) :
    alookup (symapInsert d k v) k' = if k = k' then some v else alookup d k' := by
  unfold symapInsert
  by_cases hs : (alookup d k).isSome = true
  · rw [if_pos hs]
    by_cases hk : k = k'
    · subst hk
      rw [if_pos rfl, alookup_map_update_self d k v hs]
    · rw [if_neg hk, alookup_map_update_ne d k v k' hk]
  · rw [if_neg hs]
    by_cases hk : k = k'
    · subst hk
      rw [if_pos rfl, alookup_append]
      rcases h : alookup d k with _ | w
      · simp [alookup]
      · rw [h] at hs
        simp at hs
    · rw [if_neg hk, alookup_append]
      rcases h : alookup d k' with _ | w
      · simp [alookup, fun h' => hk h']
      · rfl

lemma alookup_applyIns : ∀ (l d : List (ℕ × ℕ)) (k : ℕ),
    alookup (applyIns d l) k =
      match alookup l.reverse k with
      | some v => some v
      | none => alookup d k
  | [], d, k => by simp [applyIns, alookup]
  | p :: rest, d, k => by
    rcases p with ⟨a, b⟩
    have step : applyIns d ((a, b) :: rest) = applyIns (symapInsert d a b) rest := rfl
    rw [step, alookup_applyIns rest (symapInsert d a b) k]
    have hrev : ((a, b) :: rest).reverse = rest.reverse ++ [(a, b)] := by
      simp
    rw [hrev, alookup_append, alookup_symapInsert]
    rcases alookup rest.reverse k with _ | w
    · by_cases hk : a = k
      · simp [alookup, if_pos hk, hk]
      · simp [alookup, if_neg hk, hk]
    · rfl

lemma applyIns_append (d l1 l2 : List (ℕ × ℕ)) :
    applyIns d (l1 ++ l2) = applyIns (applyIns d l1) l2 :=
  List.foldl_append _ _ _ _

lemma foldl_insert_filterMap (pr : ℕ × Vec3) :
    ∀ (L : List (ℕ × Vec3)) (d : List (ℕ × ℕ)),
    L.foldl (fun d2 pl => if pr.2 = pl.2 then symapInsert d2 pl.1 pr.1 else d2) d =
      applyIns d (L.filterMap (fun pl => if pr.2 = pl.2 then some (pl.1, pr.1) else none))
  | [], d => rfl
  | pl :: rest, d => by
    by_cases h : pr.2 = pl.2
    · rw [List.foldl_cons, if_pos h, List.filterMap_cons, if_pos h]
      exact foldl_insert_filterMap pr rest (symapInsert d pl.1 pr.1)
    · rw [List.foldl_cons, if_neg h, List.filterMap_cons, if_neg h]
      exact foldl_insert_filterMap pr rest d

lemma SYMAP_eq (m : List Vec3) : SYMAP m = applyIns [] (insList m) := by
  unfold SYMAP insList
  suffices h : ∀ (R : List (ℕ × Vec3)) (d : List (ℕ × ℕ)),
      R.foldl
        (fun d pr =>
          (reSymSave_L m).foldl
            (fun d2 pl => if pr.2 = pl.2 then symapInsert d2 pl.1 pr.1 else d2) d) d =
        applyIns d
          (R.flatMap (fun pr =>
            (reSymSave_L m).filterMap
              (fun pl => if pr.2 = pl.2 then some (pl.1, pr.1) else none))) by
    exact h (reSymSave_R m) []
  intro R
  induction R with
  | nil => intro d; rfl
  | cons pr rest ih =>
    intro d
    simp only [List.foldl_cons, List.flatMap_cons]
    rw [foldl_insert_filterMap, applyIns_append]
    exact ih _

lemma alookup_SYMAP (m : List Vec3) (k : ℕ) :
    alookup (SYMAP m) k = alookup (insList m).reverse k := by
  rw [SYMAP_eq, alookup_applyIns]
  rcases alookup (insList m).reverse k with _ | v <;> simp [alookup]

lemma alookup_reverse_eq_some_of_unique (l : List (ℕ × ℕ)) (k v : ℕ)
    (hmem : (k, v) ∈ l) (huniq : ∀ v', (k, v') ∈ l → v' = v) :
    alookup l.reverse k = some v := by
  rcases h : alookup l.reverse k with _ | v'
  · rw [alookup_eq_none_iff] at h
    exact absurd (List.mem_reverse.mpr hmem) (h v)
  · have hm := mem_of_alookup_eq_some _ _ _ h
    rw [List.mem_reverse] at hm
    rw [huniq v' hm]

lemma alookup_reverse_eq_none (l : List (ℕ × ℕ)) (k : ℕ)
    (h : ∀ v, (k, v) ∉ l) : alookup l.reverse k = none := by
  rw [alookup_eq_none_iff]
  intro v hv
  exact h v (List.mem_reverse.mp hv)

/-! ### Membership characterizations of `L`, `R` and the assignment list -/

lemma mem_reSymSave_L (m : List Vec3) (i : ℕ) (s : Vec3) :
    (i, s) ∈ reSymSave_L m ↔ m[i]? = some s ∧ s.1 < epsSym := by
  unfold reSymSave_L
  rw [List.mem_filter]
  simp only [decide_eq_true_eq, List.mk_mem_enum_iff_getElem?]

lemma mem_reSymSave_R (m : List Vec3) (j : ℕ) (s : Vec3) :
    (j, s) ∈ reSymSave_R m ↔
      ∃ c : Vec3, m[j]? = some c ∧ -epsSym < c.1 ∧ s = (-c.1, c.2.1, c.2.2) := by
  unfold reSymSave_R
  rw [List.mem_map]
  constructor
  · rintro ⟨⟨j', c⟩, hmem, heq⟩
    rw [List.mem_filter] at hmem
    simp only [decide_eq_true_eq, List.mk_mem_enum_iff_getElem?] at hmem
    cases heq
    exact ⟨c, hmem.1, hmem.2, rfl⟩
  · rintro ⟨c, hget, hlt, rfl⟩
    refine ⟨(j, c), ?_, rfl⟩
    rw [List.mem_filter]
    simp only [decide_eq_true_eq, List.mk_mem_enum_iff_getElem?]
    exact ⟨hget, hlt⟩

lemma mem_insList (m : List Vec3) (k v : ℕ) :
    (k, v) ∈ insList m ↔
      ∃ s : Vec3, (k, s) ∈ reSymSave_L m ∧ (v, s) ∈ reSymSave_R m := by
  unfold insList
  rw [List.mem_flatMap]
  constructor
  · rintro ⟨pr, hpr, hk⟩
    rw [List.mem_filterMap] at hk
    rcases hk with ⟨pl, hpl, hif⟩
    by_cases h : pr.2 = pl.2
    · rw [if_pos h] at hif
      cases hif
      exact ⟨pl.2, hpl, h ▸ hpr⟩
    · rw [if_neg h] at hif
      cases hif
  · rintro ⟨s, hL, hR⟩
    refine ⟨(v, s), hR, ?_⟩
    rw [List.mem_filterMap]
    exact ⟨(k, s), hL, by rw [if_pos rfl]⟩

/-- C2 counterexample: under the code's thresholds a vertex with
x-coordinate `0` lands in **both** sets, although `0` is not below the
negative epsilon `-0.0001` and not above the positive epsilon `0.0001` —
the claim has the epsilon signs reversed. -/
theorem left_right_epsilon_signs_counterexample :
    (0, ((0 : ℚ), (0 : ℚ), (0 : ℚ))) ∈ reSymSave_L [((0 : ℚ), (0 : ℚ), (0 : ℚ))] ∧
      (0, ((0 : ℚ), (0 : ℚ), (0 : ℚ))) ∈ reSymSave_R [((0 : ℚ), (0 : ℚ), (0 : ℚ))] ∧
      ¬((0 : ℚ) < -epsSym) ∧ ¬(epsSym < (0 : ℚ)) := by
  refine ⟨?_, ?_, by norm_num [epsSym], by norm_num [epsSym]⟩
  · rw [mem_reSymSave_L]
    norm_num [epsSym]
  · rw [mem_reSymSave_R]
    exact ⟨((0 : ℚ), (0 : ℚ), (0 : ℚ)), by norm_num [epsSym]⟩

/-- C2 (amended): `reSymSave` places a vertex in the left dict `L` exactly
when its x-coordinate is **below the small positive epsilon** `0.0001`,
and in the right dict `R` exactly when its x-coordinate is **above the
small negative epsilon** `-0.0001` (so vertices in the band around the
plane are in both); `R`'s stored coordinate vectors have their x component
negated, `L`'s do not. -/
theorem left_right_set_characterization (m : List Vec3) (i : ℕ) (c : Vec3)
    (hc : m[i]? = some c) :
    ((i, c) ∈ reSymSave_L m ↔ c.1 < epsSym) ∧
      (∀ s, (i, s) ∈ reSymSave_L m → s = c) ∧
      ((i, (-c.1, c.2.1, c.2.2)) ∈ reSymSave_R m ↔ -epsSym < c.1) ∧
      (∀ s, (i, s) ∈ reSymSave_R m → s = (-c.1, c.2.1, c.2.2)) := by
  refine ⟨?_, ?_, ?_, ?_⟩
  · rw [mem_reSymSave_L]
    constructor
    · rintro ⟨_, h⟩
      exact h
    · intro h
      exact ⟨hc, h⟩
  · intro s hs
    rw [mem_reSymSave_L] at hs
    rw [hc] at hs
    cases hs.1
    rfl
  · rw [mem_reSymSave_R]
    constructor
    · rintro ⟨c', hg, hlt, _⟩
      rw [hc] at hg
      cases hg
      exact hlt
    · intro h
      exact ⟨c, hc, h, rfl⟩
  · intro s hs
    rw [mem_reSymSave_R] at hs
    rcases hs with ⟨c', hg, _, rfl⟩
    rw [hc] at hg
    cases hg
    rfl

/-- C2 witness: the characterization evaluated on a one-vertex mesh with
x-coordinate `-1`. -/
theorem left_right_set_characterization_witness :
    (0, ((-1 : ℚ), (0 : ℚ), (0 : ℚ))) ∈ reSymSave_L [((-1 : ℚ), (0 : ℚ), (0 : ℚ))] :=
  ((left_right_set_characterization [((-1 : ℚ), (0 : ℚ), (0 : ℚ))] 0
      ((-1 : ℚ), (0 : ℚ), (0 : ℚ)) rfl).1).mpr (by norm_num [epsSym])

/-! ### The symmetry map on a mirror-symmetric mesh -/

lemma SYMAP_mem_of_lookup (m : List Vec3) (k v : ℕ)
    (h : alookup (SYMAP m) k = some v) : (k, v) ∈ insList m := by
  rw [alookup_SYMAP] at h
  exact List.mem_reverse.mp (mem_of_alookup_eq_some _ _ _ h)

lemma SYMAP_lookup_of_unique (m : List Vec3) (k v : ℕ)
    (hmem : (k, v) ∈ insList m) (huniq : ∀ v', (k, v') ∈ insList m → v' = v) :
    alookup (SYMAP m) k = some v := by
  rw [alookup_SYMAP]
  exact alookup_reverse_eq_some_of_unique _ _ _ hmem huniq

lemma SYMAP_lookup_none (m : List Vec3) (k : ℕ)
    (h : ∀ v, (k, v) ∉ insList m) : alookup (SYMAP m) k = none := by
  rw [alookup_SYMAP]
  exact alookup_reverse_eq_none _ _ h

lemma reSymSave_L_functional (m : List Vec3) (i : ℕ) (s s' : Vec3)
    (h : (i, s) ∈ reSymSave_L m) (h' : (i, s') ∈ reSymSave_L m) : s = s' := by
  rw [mem_reSymSave_L] at h h'
  rw [h.1] at h'
  cases h'.1
  rfl

lemma reSymSave_R_functional (m : List Vec3) (j : ℕ) (s s' : Vec3)
    (h : (j, s) ∈ reSymSave_R m) (h' : (j, s') ∈ reSymSave_R m) : s = s' := by
  rw [mem_reSymSave_R] at h h'
  rcases h with ⟨c, hg, _, rfl⟩
  rcases h' with ⟨c', hg', _, rfl⟩
  rw [hg] at hg'
  cases hg'
  rfl

lemma epsSym_pos : (0 : ℚ) < epsSym := by norm_num [epsSym]

/-- Pairwise distinct vertex coordinate triples. -/
def DistinctCoords (m : List Vec3) : Prop :=
  ∀ i < m.length, ∀ j < m.length, m.getD i default = m.getD j default → i = j

/-- Exact mirror symmetry about the plane `x = 0`: every vertex has a
vertex at the x-negated coordinates. -/
def MirrorSymmetric (m : List Vec3) : Prop :=
  ∀ i < m.length, ∃ j, j < m.length ∧
    m.getD j default =
      (-(m.getD i default).1, (m.getD i default).2.1, (m.getD i default).2.2)

instance (m : List Vec3) : Decidable (DistinctCoords m) := by
  unfold DistinctCoords
  infer_instance

instance (m : List Vec3) : Decidable (MirrorSymmetric m) := by
  unfold MirrorSymmetric
  infer_instance

lemma getD_of_getElem? (m : List Vec3) (i : ℕ) (c : Vec3) (h : m[i]? = some c) :
    i < m.length ∧ m.getD i default = c := by
  have hlt : i < m.length := by
    by_contra hge
    rw [List.getElem?_eq_none (le_of_not_lt hge)] at h
    cases h
  refine ⟨hlt, ?_⟩
  rw [List.getD_eq_getElem?_getD, h]
  rfl

lemma getElem?_of_lt (m : List Vec3) (i : ℕ) (h : i < m.length) :
    m[i]? = some (m.getD i default) := by
  rw [List.getD_eq_getElem?_getD, List.getElem?_eq_getElem h]
  rfl

/-- Any assignment with key `k` made by the comprehension on a
distinct-coordinate mesh whose vertex `k` has coordinates `c` targets the
vertex with coordinates `(-c.1, c.2.1, c.2.2)`. -/
lemma insList_value_coords (m : List Vec3)
    (k v : ℕ) (c : Vec3) (hc : m[k]? = some c)
    (h : (k, v) ∈ insList m) : m[v]? = some (-c.1, c.2.1, c.2.2) := by
  rw [mem_insList] at h
  rcases h with ⟨s, hL, hR⟩
  rw [mem_reSymSave_L] at hL
  rw [hc] at hL
  obtain rfl : c = s := by
    cases hL.1
    rfl
  rw [mem_reSymSave_R] at hR
  rcases hR with ⟨cv, hgv, _, hs⟩
  have hcv : cv = (-c.1, c.2.1, c.2.2) := by
    have h1 : c.1 = -cv.1 := congrArg Prod.fst hs
    have h2 : c.2.1 = cv.2.1 := congrArg (fun x => x.2.1) hs
    have h3 : c.2.2 = cv.2.2 := congrArg (fun x => x.2.2) hs
    have : cv = (cv.1, cv.2.1, cv.2.2) := rfl
    rw [this, ← h2, ← h3]
    have : cv.1 = -c.1 := by rw [h1]; ring
    rw [this]
  rw [hcv] at hgv
  exact hgv

/-- C3: on a mesh with pairwise distinct coordinates that is exactly
mirror-symmetric about `x = 0`, the map built by `reSymSave` is injective,
sends every vertex of negative x to the unique vertex at the x-negated
coordinates (which has positive x and equal y and z), and sends every
vertex with `x = 0` to itself. -/
theorem symmetric_mesh_symap_bijection (m : List Vec3)
    (hdist : DistinctCoords m) (hsym : MirrorSymmetric m) :
    (∀ k1 k2 v, alookup (SYMAP m) k1 = some v → alookup (SYMAP m) k2 = some v → k1 = k2) ∧
      (∀ i c, m[i]? = some c → c.1 < 0 →
        ∃ j cj, alookup (SYMAP m) i = some j ∧ m[j]? = some cj ∧
          0 < cj.1 ∧ cj.1 = -c.1 ∧ cj.2.1 = c.2.1 ∧ cj.2.2 = c.2.2) ∧
      (∀ i c, m[i]? = some c → c.1 = 0 → alookup (SYMAP m) i = some i) := by
  have huniqkey : ∀ k c v, m[k]? = some c → (k, v) ∈ insList m →
      m[v]? = some ((-c.1, c.2.1, c.2.2) : Vec3) :=
    fun k c v hc h => insList_value_coords m k v c hc h
  have hdist' : ∀ (i j : ℕ) (c : Vec3), m[i]? = some c → m[j]? = some c → i = j := by
    intro i j c hi hj
    obtain ⟨hlti, hgi⟩ := getD_of_getElem? m i c hi
    obtain ⟨hltj, hgj⟩ := getD_of_getElem? m j c hj
    exact hdist i hlti j hltj (by rw [hgi, hgj])
  refine ⟨?_, ?_, ?_⟩
  · -- injectivity
    intro k1 k2 v h1 h2
    have m1 := SYMAP_mem_of_lookup m k1 v h1
    have m2 := SYMAP_mem_of_lookup m k2 v h2
    rw [mem_insList] at m1 m2
    rcases m1 with ⟨s1, hL1, hR1⟩
    rcases m2 with ⟨s2, hL2, hR2⟩
    have hs : s1 = s2 := reSymSave_R_functional m v s1 s2 hR1 hR2
    rw [mem_reSymSave_L] at hL1 hL2
    exact hdist' k1 k2 s1 hL1.1 (hs ▸ hL2.1)
  · -- negative-x vertices
    intro i c hc hneg
    obtain ⟨hlti, hgi⟩ := getD_of_getElem? m i c hc
    obtain ⟨j, hltj, hgj⟩ := hsym i hlti
    rw [hgi] at hgj
    have hj : m[j]? = some ((-c.1, c.2.1, c.2.2) : Vec3) := by
      rw [getElem?_of_lt m j hltj, hgj]
    have hmem : (i, j) ∈ insList m := by
      rw [mem_insList]
      refine ⟨c, ?_, ?_⟩
      · rw [mem_reSymSave_L]
        exact ⟨hc, lt_trans hneg epsSym_pos⟩
      · rw [mem_reSymSave_R]
        refine ⟨(-c.1, c.2.1, c.2.2), hj, ?_, ?_⟩
        · have : (0 : ℚ) < -c.1 := by linarith
          calc -epsSym < 0 := by linarith [epsSym_pos]
            _ < -c.1 := this
        · show c = (-(-c.1), c.2.1, c.2.2)
          have : -(-c.1) = c.1 := by ring
          rw [this]
    have huniq : ∀ v', (i, v') ∈ insList m → v' = j := by
      intro v' hv'
      have := huniqkey i c v' hc hv'
      exact hdist' v' j _ this hj
    refine ⟨j, (-c.1, c.2.1, c.2.2), SYMAP_lookup_of_unique m i j hmem huniq, hj, ?_, ?_, rfl, rfl⟩
    · show (0 : ℚ) < -c.1
      linarith
    · rfl
  · -- on-plane vertices
    intro i c hc hzero
    have hcself : ((-c.1, c.2.1, c.2.2) : Vec3) = c := by
      show ((-c.1, c.2.1, c.2.2) : Vec3) = (c.1, c.2.1, c.2.2)
      rw [hzero]
      norm_num
    have hmem : (i, i) ∈ insList m := by
      rw [mem_insList]
      refine ⟨c, ?_, ?_⟩
      · rw [mem_reSymSave_L]
        exact ⟨hc, by rw [hzero]; exact epsSym_pos⟩
      · rw [mem_reSymSave_R]
        refine ⟨c, hc, ?_, ?_⟩
        · rw [hzero]
          linarith [epsSym_pos]
        · rw [hcself]
    have huniq : ∀ v', (i, v') ∈ insList m → v' = i := by
      intro v' hv'
      have := huniqkey i c v' hc hv'
      rw [hcself] at this
      exact hdist' v' i c this hc
    exact SYMAP_lookup_of_unique m i i hmem huniq

/-- C3 witness: the three-vertex mesh `[(-1,0,0), (1,0,0), (0,2,3)]` is
distinct and mirror-symmetric; the built map pairs vertex 0 with vertex 1
and fixes the on-plane vertex 2. -/
theorem symmetric_mesh_symap_bijection_witness :
    alookup (SYMAP [((-1 : ℚ), (0 : ℚ), (0 : ℚ)), ((1 : ℚ), (0 : ℚ), (0 : ℚ)),
        ((0 : ℚ), (2 : ℚ), (3 : ℚ))]) 2 = some 2 := by
  have h := symmetric_mesh_symap_bijection
    [((-1 : ℚ), (0 : ℚ), (0 : ℚ)), ((1 : ℚ), (0 : ℚ), (0 : ℚ)), ((0 : ℚ), (2 : ℚ), (3 : ℚ))]
    (by decide) (by decide)
  exact h.2.2 2 ((0 : ℚ), (2 : ℚ), (3 : ℚ)) rfl rfl

/-! ### Exact matching and untouched unmatched vertices -/

lemma mem_symapInsert (d : List (ℕ × ℕ)) (a b k v : ℕ)
    (hm : (k, v) ∈ symapInsert d a b) : (k, v) ∈ d ∨ (k, v) = (a, b) := by
  unfold symapInsert at hm
  by_cases h : (alookup d a).isSome = true
  · rw [if_pos h] at hm
    rw [List.mem_map] at hm
    rcases hm with ⟨p, hp, he⟩
    by_cases hpa : p.1 = a
    · rw [if_pos hpa] at he
      exact Or.inr he.symm
    · rw [if_neg hpa] at he
      exact Or.inl (he ▸ hp)
  · rw [if_neg h] at hm
    rcases List.mem_append.mp hm with h1 | h2
    · exact Or.inl h1
    · exact Or.inr (List.mem_singleton.mp h2)

lemma mem_applyIns : ∀ (l d : List (ℕ × ℕ)) (k v : ℕ),
    (k, v) ∈ applyIns d l → (k, v) ∈ d ∨ (k, v) ∈ l
  | [], d, k, v => fun h => Or.inl h
  | p :: rest, d, k, v => by
    intro h
    have step : applyIns d (p :: rest) = applyIns (symapInsert d p.1 p.2) rest := rfl
    rw [step] at h
    rcases mem_applyIns rest (symapInsert d p.1 p.2) k v h with h1 | h2
    · rcases mem_symapInsert d p.1 p.2 k v h1 with hd | he
      · exact Or.inl hd
      · exact Or.inr (he ▸ List.mem_cons_self _ _)
    · exact Or.inr (List.mem_cons_of_mem _ h2)

lemma mem_SYMAP_sub_insList (m : List Vec3) (k v : ℕ)
    (h : (k, v) ∈ SYMAP m) : (k, v) ∈ insList m := by
  rw [SYMAP_eq] at h
  rcases mem_applyIns (insList m) [] k v h with h1 | h2
  · cases h1
  · exact h2

lemma reSymApply_getElem?_ne (sel : Bool) (side : String) (flags : List Bool)
    (co : List Vec3) (kv : ℕ × ℕ) (i : ℕ) (hk : i ≠ kv.1) (hv : i ≠ kv.2) :
    (reSymApply sel side flags co kv)[i]? = co[i]? := by
  unfold reSymApply
  split_ifs <;>
    first
    | rfl
    | exact List.getElem?_set_ne (Ne.symm hk)
    | exact List.getElem?_set_ne (Ne.symm hv)

lemma reSymMesh_frame (sel : Bool) (side : String) (flags : List Bool) :
    ∀ (symap : List (ℕ × ℕ)) (co : List Vec3) (i : ℕ),
    (∀ v, (i, v) ∉ symap) → (∀ k, (k, i) ∉ symap) →
    (reSymMesh sel side symap flags co)[i]? = co[i]?
  | [], co, i, _, _ => rfl
  | kv :: rest, co, i, hkey, hval => by
    have step : reSymMesh sel side (kv :: rest) flags co =
        reSymMesh sel side rest flags (reSymApply sel side flags co kv) := rfl
    rw [step]
    rw [reSymMesh_frame sel side flags rest _ i
      (fun v hv => hkey v (List.mem_cons_of_mem _ hv))
      (fun k hk => hval k (List.mem_cons_of_mem _ hk))]
    refine reSymApply_getElem?_ne sel side flags co kv i ?_ ?_
    · intro he
      exact hkey kv.2 (by rw [he]; exact List.mem_cons_self _ _)
    · intro he
      exact hval kv.1 (by rw [he]; exact List.mem_cons_self _ _)

/-- C5: a map entry built by `reSymSave` exists only for an exact
(component-wise) equality between the left vertex's stored vector and the
right vertex's stored sign-flipped vector; there is no tolerance-based
match, so a left-set vertex whose stored vector equals no right-set stored
vector is absent from the map — both as a key and as a value — and
`reSymMesh` (either direction, selected or not) leaves its coordinates
unchanged. -/
theorem exact_match_only_and_unmatched_untouched (m : List Vec3) (i : ℕ) (c : Vec3)
    (hc : m[i]? = some c) (hL : c.1 < epsSym)
    (hnomatch : ∀ j s, (j, s) ∈ reSymSave_R m → s ≠ c) :
    (∀ k v, alookup (SYMAP m) k = some v →
        ∃ s, (k, s) ∈ reSymSave_L m ∧ (v, s) ∈ reSymSave_R m) ∧
      alookup (SYMAP m) i = none ∧
      (∀ k, alookup (SYMAP m) k ≠ some i) ∧
      (∀ sel side flags, (reSymMesh sel side (SYMAP m) flags m)[i]? = some c) := by
  have hkeyfree : ∀ v, (i, v) ∉ insList m := by
    intro v hv
    rw [mem_insList] at hv
    rcases hv with ⟨s, hLs, hRs⟩
    rw [mem_reSymSave_L] at hLs
    rw [hc] at hLs
    obtain rfl : c = s := Option.some.inj hLs.1
    exact hnomatch v c hRs rfl
  have hvalfree : ∀ k, (k, i) ∉ insList m := by
    intro k hk
    rw [mem_insList] at hk
    rcases hk with ⟨s, hLs, hRs⟩
    rw [mem_reSymSave_R] at hRs
    rcases hRs with ⟨ci, hgi, _, hs⟩
    rw [hc] at hgi
    obtain rfl : c = ci := Option.some.inj hgi
    subst hs
    rw [mem_reSymSave_L] at hLs
    have hkR : (k, c) ∈ reSymSave_R m := by
      rw [mem_reSymSave_R]
      refine ⟨(-c.1, c.2.1, c.2.2), hLs.1, ?_, ?_⟩
      · show -epsSym < -c.1
        linarith
      · show c = (-(-c.1), c.2.1, c.2.2)
        have h1 : -(-c.1) = c.1 := by ring
        rw [h1]
    exact hnomatch k c hkR rfl
  refine ⟨?_, ?_, ?_, ?_⟩
  · intro k v h
    have := SYMAP_mem_of_lookup m k v h
    rw [mem_insList] at this
    exact this
  · exact SYMAP_lookup_none m i hkeyfree
  · intro k hk
    exact hvalfree k (SYMAP_mem_of_lookup m k i hk)
  · intro sel side flags
    rw [reSymMesh_frame sel side flags (SYMAP m) m i
      (fun v hv => hkeyfree v (mem_SYMAP_sub_insList m i v hv))
      (fun k hk => hvalfree k (mem_SYMAP_sub_insList m k i hk))]
    exact hc

/-- C5 witness: the one-vertex mesh `[(-1, 5, 5)]` has its single vertex
in the left set with no right-set counterpart; it is absent from the map
and `reSymMesh` leaves it unchanged. -/
theorem exact_match_only_and_unmatched_untouched_witness :
    alookup (SYMAP [((-1 : ℚ), (5 : ℚ), (5 : ℚ))]) 0 = none ∧
      (reSymMesh false "+-" (SYMAP [((-1 : ℚ), (5 : ℚ), (5 : ℚ))]) []
          [((-1 : ℚ), (5 : ℚ), (5 : ℚ))])[0]? = some ((-1 : ℚ), (5 : ℚ), (5 : ℚ)) := by
  have hR : reSymSave_R [((-1 : ℚ), (5 : ℚ), (5 : ℚ))] = [] := by
    rw [reSymSave_R]
    rw [show List.enum [((-1 : ℚ), (5 : ℚ), (5 : ℚ))] = [(0, ((-1 : ℚ), (5 : ℚ), (5 : ℚ)))] from rfl]
    rw [List.filter_cons]
    norm_num [epsSym]
  have h := exact_match_only_and_unmatched_untouched [((-1 : ℚ), (5 : ℚ), (5 : ℚ))] 0
    ((-1 : ℚ), (5 : ℚ), (5 : ℚ)) rfl (by norm_num [epsSym])
    (by intro j s hm; rw [hR] at hm; cases hm)
  exact ⟨h.2.1, h.2.2.2 false "+-" []⟩

/-! ### `reSymMesh` in the `"+-"` direction -/

lemma reSymApply_length (sel : Bool) (side : String) (flags : List Bool)
    (co : List Vec3) (kv : ℕ × ℕ) :
    (reSymApply sel side flags co kv).length = co.length := by
  unfold reSymApply
  split_ifs <;> simp [List.length_set]

lemma reSymApply_pm_getElem?_ne (sel : Bool) (flags : List Bool) (co : List Vec3)
    (kv : ℕ × ℕ) (i : ℕ) (hk : i ≠ kv.1) :
    (reSymApply sel "+-" flags co kv)[i]? = co[i]? := by
  unfold reSymApply
  rw [if_pos rfl]
  split_ifs <;> first | rfl | exact List.getElem?_set_ne (Ne.symm hk)

lemma reSymMesh_pm_frame (sel : Bool) (flags : List Bool) :
    ∀ (symap : List (ℕ × ℕ)) (co : List Vec3) (i : ℕ), (∀ v, (i, v) ∉ symap) →
    (reSymMesh sel "+-" symap flags co)[i]? = co[i]?
  | [], co, i, _ => rfl
  | kv :: rest, co, i, hkey => by
    have step : reSymMesh sel "+-" (kv :: rest) flags co =
        reSymMesh sel "+-" rest flags (reSymApply sel "+-" flags co kv) := rfl
    rw [step]
    rw [reSymMesh_pm_frame sel flags rest _ i
      (fun v hv => hkey v (List.mem_cons_of_mem _ hv))]
    refine reSymApply_pm_getElem?_ne sel flags co kv i (fun he => ?_)
    exact hkey kv.2 (by rw [he]; exact List.mem_cons_self _ _)

/-- C4 counterexample: for the two-vertex mesh `[(-2,0,0), (5,0,0)]` and
the stored map `{1: 0, 0: 1}` — a valid map, every key's value exists —
running `reSymMesh` in the `"+-"` direction with `SELECTED` false does
*not* set vertex 0 to the mirror `(-5,0,0)` of entry `(0,1)`'s value
vertex: the earlier entry `(1,0)` overwrites vertex 1 first, and entry
`(0,1)` then reads the already-updated coordinates, yielding
`(-2,0,0)`. -/
theorem resym_mesh_aliasing_counterexample :
    ((0 : ℕ), (1 : ℕ)) ∈ [((1 : ℕ), (0 : ℕ)), (0, 1)] ∧
      (0 : ℕ) ≠ 1 ∧
      [((-2 : ℚ), (0 : ℚ), (0 : ℚ)), ((5 : ℚ), (0 : ℚ), (0 : ℚ))][1]? =
        some ((5 : ℚ), (0 : ℚ), (0 : ℚ)) ∧
      (reSymMesh false "+-" [((1 : ℕ), (0 : ℕ)), (0, 1)] [false, false]
            [((-2 : ℚ), (0 : ℚ), (0 : ℚ)), ((5 : ℚ), (0 : ℚ), (0 : ℚ))])[0]? ≠
        some (mirrorX ((5 : ℚ), (0 : ℚ), (0 : ℚ))) := by
  refine ⟨by decide, by decide, rfl, ?_⟩
  have hrun : reSymMesh false "+-" [((1 : ℕ), (0 : ℕ)), (0, 1)] [false, false]
      [((-2 : ℚ), (0 : ℚ), (0 : ℚ)), ((5 : ℚ), (0 : ℚ), (0 : ℚ))] =
      [((-2 : ℚ), (0 : ℚ), (0 : ℚ)), ((2 : ℚ), (0 : ℚ), (0 : ℚ))] := by
    decide
  rw [hrun]
  decide

/-- C4 (amended): for every mesh and stored map valid for it in which no
value of a non-fixed entry is itself a key (the situation produced by
`reSymSave` away from the `±0.0001` band), running `reSymMesh` in the
`"+-"` direction with `SELECTED` false sets each key vertex `VERT` with
`VERT ≠ SYMAP[VERT]` to `(-x, y, z)` of `SYMAP[VERT]`'s original
coordinates, sets each self-mapped vertex's x to `0`, and leaves every
vertex that is not a key unchanged.  In general the entries are applied
sequentially and an entry whose value vertex was already rewritten reads
the updated coordinates instead. -/
theorem resym_mesh_plus_minus_spec :
    ∀ (symap : List (ℕ × ℕ)) (co : List Vec3) (flags : List Bool),
    (symap.map Prod.fst).Nodup →
    (∀ p ∈ symap, p.1 ≠ p.2 → ∀ q ∈ symap, p.2 ≠ q.1) →
    (∀ p ∈ symap, p.1 < co.length) →
    (∀ k v cv, (k, v) ∈ symap → k ≠ v → co[v]? = some cv →
        (reSymMesh false "+-" symap flags co)[k]? = some (mirrorX cv)) ∧
      (∀ k ck, (k, k) ∈ symap → co[k]? = some ck →
        (reSymMesh false "+-" symap flags co)[k]? = some (0, ck.2.1, ck.2.2)) ∧
      (∀ i, (∀ v, (i, v) ∉ symap) →
        (reSymMesh false "+-" symap flags co)[i]? = co[i]?)
  | [], co, flags, _, _, _ => by
    refine ⟨?_, ?_, ?_⟩
    · intro k v cv hm
      cases hm
    · intro k ck hm
      cases hm
    · intro i _
      rfl
  | (a, b) :: rest, co, flags, hnd, hval, hrg => by
    have hane : a ∉ rest.map Prod.fst := (List.nodup_cons.mp hnd).1
    have hnd' : (rest.map Prod.fst).Nodup := (List.nodup_cons.mp hnd).2
    have hval' : ∀ p ∈ rest, p.1 ≠ p.2 → ∀ q ∈ rest, p.2 ≠ q.1 :=
      fun p hp hne q hq =>
        hval p (List.mem_cons_of_mem _ hp) hne q (List.mem_cons_of_mem _ hq)
    have hkeyne : ∀ k, (k, a) ∉ rest ∨ True := fun _ => Or.inr trivial
    -- the updated coordinate list after processing the head entry
    set co1 := reSymApply false "+-" flags co (a, b) with hco1
    have hlen : co1.length = co.length := reSymApply_length _ _ _ _ _
    have hrg' : ∀ p ∈ rest, p.1 < co1.length := by
      intro p hp
      rw [hlen]
      exact hrg p (List.mem_cons_of_mem _ hp)
    have step : reSymMesh false "+-" ((a, b) :: rest) flags co =
        reSymMesh false "+-" rest flags co1 := rfl
    obtain ⟨IH1, IH2, IH3⟩ :=
      resym_mesh_plus_minus_spec rest co1 flags hnd' hval' hrg'
    -- the head write leaves the reads of the tail entries untouched
    have hread_nonfix : ∀ k v, (k, v) ∈ rest → k ≠ v → co1[v]? = co[v]? := by
      intro k v hm hne
      have hva : v ≠ a :=
        hval (k, v) (List.mem_cons_of_mem _ hm) hne (a, b) (List.mem_cons_self _ _)
      exact reSymApply_pm_getElem?_ne false flags co (a, b) v hva
    have hread_fix : ∀ k, (k, k) ∈ rest → co1[k]? = co[k]? := by
      intro k hm
      have hka : k ≠ a := by
        intro he
        exact hane (he ▸ List.mem_map_of_mem Prod.fst hm)
      exact reSymApply_pm_getElem?_ne false flags co (a, b) k hka
    have hgetD : ∀ (v : ℕ) (cv : Vec3), co[v]? = some cv → co.getD v default = cv := by
      intro v cv h
      rw [List.getD_eq_getElem?_getD, h]
      rfl
    have halt : a < co.length := hrg (a, b) (List.mem_cons_self _ _)
    have heval : co1 =
        if a = b then co.set a (0, (co.getD b default).2.1, (co.getD b default).2.2)
        else co.set a (mirrorX (co.getD b default)) := by
      rw [hco1]
      unfold reSymApply
      rw [if_pos rfl]
      simp
    have hheadA : ∀ cv : Vec3, a ≠ b → co[b]? = some cv →
        (reSymMesh false "+-" ((a, b) :: rest) flags co)[a]? = some (mirrorX cv) := by
      intro cv hne hb
      rw [step, reSymMesh_pm_frame false flags rest co1 a
        (fun v hv => hane (List.mem_map_of_mem Prod.fst hv))]
      rw [heval, if_neg hne, hgetD b cv hb]
      exact List.getElem?_set_eq_of_lt _ halt
    have hheadB : ∀ ck : Vec3, a = b → co[a]? = some ck →
        (reSymMesh false "+-" ((a, b) :: rest) flags co)[a]? =
          some (0, ck.2.1, ck.2.2) := by
      intro ck hab ha
      rw [step, reSymMesh_pm_frame false flags rest co1 a
        (fun v hv => hane (List.mem_map_of_mem Prod.fst hv))]
      rw [heval, if_pos hab]
      rw [show co.getD b default = ck from hab ▸ hgetD a ck ha]
      exact List.getElem?_set_eq_of_lt _ halt
    refine ⟨?_, ?_, ?_⟩
    · intro k v cv hm hne hb
      rcases List.mem_cons.mp hm with he | hm'
      · cases he
        exact hheadA cv hne hb
      · rw [step]
        exact IH1 k v cv hm' hne (by rw [hread_nonfix k v hm' hne]; exact hb)
    · intro k ck hm hk
      rcases List.mem_cons.mp hm with he | hm'
      · cases he
        exact hheadB ck rfl hk
      · rw [step]
        exact IH2 k ck hm' (by rw [hread_fix k hm']; exact hk)
    · intro i hi
      rw [step, IH3 i (fun v hv => hi v (List.mem_cons_of_mem _ hv))]
      refine reSymApply_pm_getElem?_ne false flags co (a, b) i (fun he => ?_)
      exact hi b (by rw [he]; exact List.mem_cons_self _ _)

/-- C4 witness: a one-entry map applied to a two-vertex mesh mirrors the
value vertex's coordinates onto the key vertex. -/
theorem resym_mesh_plus_minus_spec_witness :
    (reSymMesh false "+-" [((0 : ℕ), (1 : ℕ))] []
        [((-9 : ℚ), (4 : ℚ), (4 : ℚ)), ((3 : ℚ), (4 : ℚ), (4 : ℚ))])[0]? =
      some (mirrorX ((3 : ℚ), (4 : ℚ), (4 : ℚ))) :=
  (resym_mesh_plus_minus_spec [((0 : ℕ), (1 : ℕ))]
      [((-9 : ℚ), (4 : ℚ), (4 : ℚ)), ((3 : ℚ), (4 : ℚ), (4 : ℚ))] []
      (by decide) (by decide) (by decide)).1
    0 1 ((3 : ℚ), (4 : ℚ), (4 : ℚ)) (by decide) (by decide) rfl

/-!
## `bmesh_face_points_random` — seeded triangle sampling

`random.seed(f.index)` resets the module-level generator, and
`uniform(a, b)` returns `a + (b-a)*r` with `r` the next raw draw in
`[0, 1]`.  The generator is embedded as a function `rand : seed → draw
counter → ℚ`, and the module-level state as the pair (current seed,
number of draws made); seeding replaces it by `(f.index, 0)`, which is
why the output is independent of the incoming state.
-/

/-- `uniform(a, b)` for the generator state `(seed, c)`:
`a + (b - a) * rand seed c`. -/
def pyUniform (rand : ℕ → ℕ → ℚ) (seed c : ℕ) (a b : ℚ) : ℚ :=
  a + (b - a) * rand seed c

/-- The fold-back step of `bmesh_face_points_random` (mesh_helpers.py,
lines 179-183): a sample pair whose sum exceeds `1.0` is replaced by
`(1 - u1, 1 - u2)`. -/
def baryFold (u1 u2 : ℚ) : ℚ × ℚ := if 1 < u1 + u2 then (1 - u1, 1 - u2) else (u1, u2)

/-- The sampling loop of `bmesh_face_points_random` (mesh_helpers.py,
lines 176-183): `numPoints` pairs of `uniform(margin, 1 - margin)` draws,
folded back into the triangle; `c` is the draw counter. -/
def baryLoop (rand : ℕ → ℕ → ℚ) (seed : ℕ) (margin : ℚ) : ℕ → ℕ → List (ℚ × ℚ)
  | _, 0 => []
  | c, Nat.succ n =>
    let u1 := pyUniform rand seed c margin (1 - margin)
    let u2 := pyUniform rand seed (c + 1) margin (1 - margin)
    baryFold u1 u2 :: baryLoop rand seed margin (c + 2) n

/-- The barycentric pairs produced by `bmesh_face_points_random`
(mesh_helpers.py, lines 166-188): `random.seed(f.index)` (line 172)
discards the incoming generator state `gstate`, so the draws depend only
on the face index. -/
def bmesh_face_points_bary (rand : ℕ → ℕ → ℚ) (gstate : ℕ × ℕ) (findex : ℕ)
    (numPoints : ℕ) (margin : ℚ) : List (ℚ × ℚ) :=
  baryLoop rand findex margin 0 numPoints

/-- The yielded points `vecs[0] + u1*side1 + u2*side2` (mesh_helpers.py,
lines 185-188). -/
def bmesh_face_points_random (rand : ℕ → ℕ → ℚ) (gstate : ℕ × ℕ) (findex : ℕ)
    (vecs : List Vec3) (numPoints : ℕ) (margin : ℚ) : List Vec3 :=
  (bmesh_face_points_bary rand gstate findex numPoints margin).map
    (fun u =>
      vadd (vecs.getD 0 default)
        (vadd (vsmul u.1 (vsub (vecs.getD 1 default) (vecs.getD 0 default)))
          (vsmul u.2 (vsub (vecs.getD 2 default) (vecs.getD 0 default)))))

lemma pyUniform_bounds (rand : ℕ → ℕ → ℚ) (seed c : ℕ) (margin : ℚ)
    (hr : ∀ s k, 0 ≤ rand s k ∧ rand s k ≤ 1) (h0 : 0 ≤ margin) (h1 : margin ≤ 1) :
    0 ≤ pyUniform rand seed c margin (1 - margin) ∧
      pyUniform rand seed c margin (1 - margin) ≤ 1 := by
  obtain ⟨hr0, hr1⟩ := hr seed c
  unfold pyUniform
  constructor <;> nlinarith

lemma baryFold_bounds (u1 u2 : ℚ) (h10 : 0 ≤ u1) (h11 : u1 ≤ 1) (h20 : 0 ≤ u2)
    (h21 : u2 ≤ 1) :
    0 ≤ (baryFold u1 u2).1 ∧ 0 ≤ (baryFold u1 u2).2 ∧
      (baryFold u1 u2).1 + (baryFold u1 u2).2 ≤ 1 := by
  unfold baryFold
  split_ifs with h
  · refine ⟨by simp; linarith, by simp; linarith, ?_⟩
    show 1 - u1 + (1 - u2) ≤ 1
    linarith
  · exact ⟨h10, h20, by linarith⟩

lemma baryLoop_bounds (rand : ℕ → ℕ → ℚ) (seed : ℕ) (margin : ℚ)
    (hr : ∀ s k, 0 ≤ rand s k ∧ rand s k ≤ 1) (h0 : 0 ≤ margin) (h1 : margin ≤ 1) :
    ∀ (n c : ℕ) (u : ℚ × ℚ), u ∈ baryLoop rand seed margin c n →
      0 ≤ u.1 ∧ 0 ≤ u.2 ∧ u.1 + u.2 ≤ 1
  | 0, c, u => by
    intro hm
    cases hm
  | Nat.succ n, c, u => by
    intro hm
    rcases List.mem_cons.mp hm with he | hm'
    · subst he
      obtain ⟨ha0, ha1⟩ := pyUniform_bounds rand seed c margin hr h0 h1
      obtain ⟨hb0, hb1⟩ := pyUniform_bounds rand seed (c + 1) margin hr h0 h1
      exact baryFold_bounds _ _ ha0 ha1 hb0 hb1
    · exact baryLoop_bounds rand seed margin hr h0 h1 n (c + 2) u hm'

/-- C6: with the generator re-seeded from the face index, the points
yielded by `bmesh_face_points_random` do not depend on the incoming
generator state — repeated calls with the same arguments yield the same
sequence — and every yielded point's barycentric pair `(u1, u2)` (the
pair actually used to form `vecs[0] + u1*side1 + u2*side2`, after the
fold-back of pairs summing above `1.0`) satisfies `0 ≤ u1`, `0 ≤ u2` and
`u1 + u2 ≤ 1`, provided the raw draws lie in `[0, 1]` and
`0 ≤ margin ≤ 1` (the call sites use the default `margin = 0.05`). -/
theorem face_points_deterministic_and_in_triangle (rand : ℕ → ℕ → ℚ)
    (g1 g2 : ℕ × ℕ) (findex numPoints : ℕ) (margin : ℚ) (vecs : List Vec3)
    (hr : ∀ s k, 0 ≤ rand s k ∧ rand s k ≤ 1) (h0 : 0 ≤ margin) (h1 : margin ≤ 1) :
    bmesh_face_points_random rand g1 findex vecs numPoints margin =
        bmesh_face_points_random rand g2 findex vecs numPoints margin ∧
      bmesh_face_points_random rand g1 findex vecs numPoints margin =
        (bmesh_face_points_bary rand g1 findex numPoints margin).map
          (fun u =>
            vadd (vecs.getD 0 default)
              (vadd (vsmul u.1 (vsub (vecs.getD 1 default) (vecs.getD 0 default)))
                (vsmul u.2 (vsub (vecs.getD 2 default) (vecs.getD 0 default))))) ∧
      ∀ u ∈ bmesh_face_points_bary rand g1 findex numPoints margin,
        0 ≤ u.1 ∧ 0 ≤ u.2 ∧ u.1 + u.2 ≤ 1 := by
  refine ⟨rfl, rfl, ?_⟩
  intro u hm
  exact baryLoop_bounds rand findex margin hr h0 h1 numPoints 0 u hm

/-- C6 witness: the bounds evaluated for a concrete generator, the default
margin `0.05`, face index 3 and two sample points, from two different
incoming generator states. -/
theorem face_points_deterministic_and_in_triangle_witness :
    bmesh_face_points_random (fun _ _ => 1 / 2) (5, 7) 3
        [((0 : ℚ), 0, 0), ((1 : ℚ), 0, 0), ((0 : ℚ), 1, 0)] 2 (1 / 20) =
      bmesh_face_points_random (fun _ _ => 1 / 2) (9, 1) 3
        [((0 : ℚ), 0, 0), ((1 : ℚ), 0, 0), ((0 : ℚ), 1, 0)] 2 (1 / 20) :=
  (face_points_deterministic_and_in_triangle (fun _ _ => 1 / 2) (5, 7) (9, 1) 3 2 (1 / 20)
      [((0 : ℚ), 0, 0), ((1 : ℚ), 0, 0), ((0 : ℚ), 1, 0)]
      (fun _ _ => by norm_num) (by norm_num) (by norm_num)).1

/-! ### The resym-vertex-weights pipeline -/

/-- `SELVER` as computed by `resymVertexGroups.execute` (oscurart_meshes.py,
lines 105-109): the indices selected after deselecting everything and
selecting the active group's vertices. -/
def groupSelver (st : MeshObjState) : List ℕ :=
  selectedIndices (vertex_group_select st.activeGroup (deselectAll st.verts))

lemma deselectAll_getElem? (vs : List VertexInfo) (i : ℕ) :
    (deselectAll vs)[i]? = (vs[i]?).map (fun v => { v with select := false }) :=
  List.getElem?_map _ _ _

lemma vertex_group_select_getElem? (g : ℕ) (vs : List VertexInfo) (i : ℕ) :
    (vertex_group_select g vs)[i]? =
      (vs[i]?).map (fun v => if hasGroup v g then { v with select := true } else v) :=
  List.getElem?_map _ _ _

lemma assignActive_getElem? (g : ℕ) (w : ℚ) (vs : List VertexInfo) (i : ℕ) :
    (assignActive g w vs)[i]? =
      (vs[i]?).map (fun v =>
        if v.select then
          if hasGroup v g then
            { v with groups := v.groups.map (fun p => if p.1 = g then (p.1, w) else p) }
          else { v with groups := v.groups ++ [(g, w)] }
        else v) :=
  List.getElem?_map _ _ _

lemma selectVerts_getElem? : ∀ (idxs : List ℕ) (vs : List VertexInfo) (i : ℕ),
    (selectVerts idxs vs)[i]? =
      if i ∈ idxs then (vs[i]?).map (fun v => { v with select := true }) else vs[i]?
  | [], vs, i => by simp [selectVerts]
  | j :: rest, vs, i => by
    have step : selectVerts (j :: rest) vs =
        selectVerts rest
          (match vs[j]? with
            | some v => vs.set j { v with select := true }
            | none => vs) := rfl
    rw [step, selectVerts_getElem? rest _ i]
    have hone : (match vs[j]? with
          | some v => vs.set j { v with select := true }
          | none => vs)[i]? =
        if i = j then (vs[i]?).map (fun v => { v with select := true }) else vs[i]? := by
      rcases hj : vs[j]? with _ | v
      · by_cases hij : i = j
        · subst hij
          rw [if_pos rfl, hj]
          rfl
        · rw [if_neg hij]
      · by_cases hij : i = j
        · subst hij
          have hlt : i < vs.length := by
            by_contra hge
            rw [List.getElem?_eq_none (le_of_not_lt hge)] at hj
            cases hj
          rw [if_pos rfl, hj, List.getElem?_set_eq_of_lt _ hlt]
          rfl
        · rw [if_neg hij]
          exact List.getElem?_set_ne fun he => hij he.symm
    by_cases hr : i ∈ rest
    · rw [if_pos hr, if_pos (List.mem_cons_of_mem _ hr), hone]
      by_cases hij : i = j
      · rw [if_pos hij, Option.map_map]
        rcases vs[i]? with _ | v <;> rfl
      · rw [if_neg hij]
    · rw [if_neg hr, hone]
      by_cases hij : i = j
      · rw [if_pos hij, if_pos (hij ▸ List.mem_cons_self _ _)]
      · rw [if_neg hij, if_neg (fun hm => by
          rcases List.mem_cons.mp hm with he | hm'
          · exact hij he
          · exact hr hm')]

lemma copyWeightsAux_frame (g : ℕ) (symap : List (ℕ × ℕ)) :
    ∀ (inl : List ℕ) (em rc : Option ℕ) (vs vs' : List VertexInfo),
    copyWeightsAux g symap inl em rc vs = .ok vs' →
    ∀ i, i ∉ inl → vs'[i]? = vs[i]?
  | [], em, rc, vs, vs' => by
    intro h i _
    cases h
    rfl
  | vert :: rest, em, rc, vs, vs' => by
    intro h i hi
    have hiv : i ≠ vert := fun he => hi (he ▸ List.mem_cons_self _ _)
    have hir : i ∉ rest := fun hm => hi (List.mem_cons_of_mem _ hm)
    rw [copyWeightsAux] at h
    split at h
    · cases h
    · split at h
      · rw [copyWeightsAux_frame g symap rest _ _ _ vs' h i hir]
        exact List.getElem?_set_ne (Ne.symm hiv)
      · cases h
      · cases h

lemma mem_INLof (symap : List (ℕ × ℕ)) (selver : List ℕ) (i : ℕ) :
    i ∈ INLof symap selver ↔ ∃ v, (i, v) ∈ symap ∧ v ∈ selver ∧ i ≠ v := by
  unfold INLof
  rw [List.mem_map]
  constructor
  · rintro ⟨p, hp, rfl⟩
    rw [List.mem_filter] at hp
    obtain ⟨hm, hcond⟩ := hp
    rw [Bool.and_eq_true, decide_eq_true_eq, decide_eq_true_eq] at hcond
    exact ⟨p.2, hm, hcond.1, hcond.2⟩
  · rintro ⟨v, hm, hs, hne⟩
    refine ⟨(i, v), ?_, rfl⟩
    rw [List.mem_filter]
    refine ⟨hm, ?_⟩
    rw [Bool.and_eq_true, decide_eq_true_eq, decide_eq_true_eq]
    exact ⟨hs, hne⟩

lemma mem_groupSelver (st : MeshObjState) (i : ℕ) :
    i ∈ groupSelver st ↔
      ∃ v, st.verts[i]? = some v ∧ hasGroup v st.activeGroup = true := by
  unfold groupSelver selectedIndices
  rw [List.mem_map]
  constructor
  · rintro ⟨⟨j, w⟩, hmem, rfl⟩
    rw [List.mem_filter] at hmem
    obtain ⟨henum, hsel⟩ := hmem
    rw [List.mk_mem_enum_iff_getElem?] at henum
    rw [vertex_group_select_getElem?, deselectAll_getElem?] at henum
    rcases hv : st.verts[j]? with _ | v
    · rw [hv] at henum
      cases henum
    · rw [hv] at henum
      simp only [Option.map_some'] at henum
      cases henum
      refine ⟨v, rfl, ?_⟩
      by_cases hg : hasGroup v st.activeGroup
      · exact hg
      · rw [if_neg (by
          show ¬(hasGroup { v with select := false } st.activeGroup = true)
          exact hg)] at hsel
        cases hsel
  · rintro ⟨v, hv, hg⟩
    refine ⟨(i, { { v with select := false } with select := true }), ?_, rfl⟩
    rw [List.mem_filter]
    constructor
    · rw [List.mk_mem_enum_iff_getElem?]
      rw [vertex_group_select_getElem?, deselectAll_getElem?, hv]
      simp only [Option.map_some']
      rw [if_pos (by show hasGroup { v with select := false } st.activeGroup = true; exact hg)]
    · rfl

lemma alookup_eq_of_mem_nodup : ∀ (l : List (ℕ × ℕ)) (k v : ℕ),
    (l.map Prod.fst).Nodup → (k, v) ∈ l → alookup l k = some v
  | [], k, v => by
    intro _ hm
    cases hm
  | (a, b) :: rest, k, v => by
    intro hnd hm
    rcases List.mem_cons.mp hm with he | hm'
    · cases he
      rw [alookup, if_pos rfl]
    · have hka : a ≠ k := by
        intro he
        subst he
        have hmm : Prod.fst (a, v) ∈ List.map Prod.fst rest :=
          List.mem_map_of_mem Prod.fst hm'
        exact (List.nodup_cons.mp hnd).1 hmm
      rw [alookup, if_neg hka]
      exact alookup_eq_of_mem_nodup rest k v (List.nodup_cons.mp hnd).2 hm'

lemma resymVG_core_eq (symap : List (ℕ × ℕ)) (st : MeshObjState) :
    resymVG_core symap st =
      match copyWeightsAux st.activeGroup symap (INLof symap (groupSelver st)) none none
          (assignActive st.activeGroup st.toolWeight
            (selectVerts (INLof symap (groupSelver st))
              (deselectAll (vertex_group_select st.activeGroup (deselectAll st.verts))))) with
      | .error e => .error e
      | .ok vs6 => .ok { st with verts := vs6 } := rfl

/-- C10 counterexample: a single on-plane vertex, mapped to itself by the
stored map, assigned to the active group and initially selected.  The
operator's `select_all(action='DESELECT')` clears its selection: after the
run its select flag is `false`, so its selection *is* modified, contrary
to the claim (its active-group weight is indeed untouched). -/
theorem self_mapped_vertex_deselected :
    alookup [((0 : ℕ), (0 : ℕ))] 0 = some 0 ∧
      ((({ verts := [{ select := true, groups := [((0 : ℕ), (1 : ℚ))] }], activeGroup := 0, toolWeight := 1, groupNames := [] } : MeshObjState)).verts[0]?).map VertexInfo.select = some true ∧
      resymVG_core [((0 : ℕ), (0 : ℕ))]
          ({ verts := [{ select := true, groups := [((0 : ℕ), (1 : ℚ))] }], activeGroup := 0, toolWeight := 1, groupNames := [] } : MeshObjState) =
        Except.ok
          ({ verts := [{ select := false, groups := [((0 : ℕ), (1 : ℚ))] }], activeGroup := 0, toolWeight := 1, groupNames := [] } : MeshObjState) := by
  refine ⟨by decide, rfl, ?_⟩
  rfl

/-- C10 (amended): `resymVertexGroups.execute` copies a weight only onto
vertices in `INL` — the keys `VERT` of the stored map with
`VERT ≠ SYMAP[VERT]` and `SYMAP[VERT]` among the vertices of the active
group (the selection recorded in `SELVER`); every other vertex's group
data is untouched.  A self-mapped vertex in particular never has its
active-group weight modified, but it ends the run **deselected**: the
operator's deselect-all clears any prior selection rather than preserving
it. -/
theorem resym_weights_write_scope (symap : List (ℕ × ℕ)) (st st' : MeshObjState)
    (hnd : (symap.map Prod.fst).Nodup)
    (hok : resymVG_core symap st = .ok st') :
    (∀ i, i ∈ INLof symap (groupSelver st) ↔
        ∃ v, (i, v) ∈ symap ∧ v ∈ groupSelver st ∧ i ≠ v) ∧
      (∀ i, i ∈ groupSelver st ↔
        ∃ v, st.verts[i]? = some v ∧ hasGroup v st.activeGroup = true) ∧
      (∀ i, i ∉ INLof symap (groupSelver st) →
        (st'.verts[i]?).map VertexInfo.groups = (st.verts[i]?).map VertexInfo.groups) ∧
      (∀ i, alookup symap i = some i →
        (st'.verts[i]?).map VertexInfo.groups = (st.verts[i]?).map VertexInfo.groups ∧
          (st'.verts[i]?).map VertexInfo.select = (st.verts[i]?).map (fun _ => false)) := by
  rw [resymVG_core_eq] at hok
  split at hok
  · cases hok
  case _ vs6 h6 =>
  cases hok
  have hframe : ∀ i, i ∉ INLof symap (groupSelver st) →
      vs6[i]? =
        ((((st.verts[i]?).map (fun v => { v with select := false })).map
              (fun v => if hasGroup v st.activeGroup then { v with select := true } else v)).map
            (fun v => { v with select := false })).map
          (fun v =>
            if v.select then
              if hasGroup v st.activeGroup then
                { v with
                  groups := List.map (fun p => if p.1 = st.activeGroup then (p.1, st.toolWeight) else p) v.groups }
              else { v with groups := v.groups ++ [(st.activeGroup, st.toolWeight)] }
            else v) := by
    intro i hi
    rw [copyWeightsAux_frame _ _ _ _ _ _ _ h6 i hi]
    rw [assignActive_getElem?, selectVerts_getElem?, if_neg hi, deselectAll_getElem?,
      vertex_group_select_getElem?, deselectAll_getElem?]
  have hgroups : ∀ i, i ∉ INLof symap (groupSelver st) →
      (vs6[i]?).map VertexInfo.groups = (st.verts[i]?).map VertexInfo.groups := by
    intro i hi
    rw [hframe i hi]
    rcases st.verts[i]? with _ | v
    · rfl
    · simp only [Option.map_some', Bool.false_eq_true, if_false]
      by_cases hg : hasGroup { select := false, groups := v.groups } st.activeGroup = true
      · rw [if_pos hg]
      · rw [if_neg hg]
  have hselect : ∀ i, i ∉ INLof symap (groupSelver st) →
      (vs6[i]?).map VertexInfo.select = (st.verts[i]?).map (fun _ => false) := by
    intro i hi
    rw [hframe i hi]
    rcases st.verts[i]? with _ | v
    · rfl
    · simp only [Option.map_some', Bool.false_eq_true, if_false]
  refine ⟨fun i => mem_INLof symap (groupSelver st) i,
    fun i => mem_groupSelver st i, hgroups, ?_⟩
  intro i hself
  have hnotin : i ∉ INLof symap (groupSelver st) := by
    intro hin
    rcases (mem_INLof symap (groupSelver st) i).mp hin with ⟨v, hm, _, hne⟩
    have := alookup_eq_of_mem_nodup symap i v hnd hm
    rw [hself] at this
    exact hne (Option.some.inj this)
  exact ⟨hgroups i hnotin, hselect i hnotin⟩

/-- C10 witness: the write-scope theorem applied to the counterexample
state — vertex 0 is self-mapped, its group data is preserved and it ends
deselected. -/
theorem resym_weights_write_scope_witness :
    ((({ verts := [{ select := false, groups := [((0 : ℕ), (1 : ℚ))] }], activeGroup := 0, toolWeight := 1, groupNames := [] } : MeshObjState)).verts[0]?).map VertexInfo.groups =
      ((({ verts := [{ select := true, groups := [((0 : ℕ), (1 : ℚ))] }], activeGroup := 0, toolWeight := 1, groupNames := [] } : MeshObjState)).verts[0]?).map VertexInfo.groups :=
  ((resym_weights_write_scope [((0 : ℕ), (0 : ℕ))]
      ({ verts := [{ select := true, groups := [((0 : ℕ), (1 : ℚ))] }], activeGroup := 0, toolWeight := 1, groupNames := [] } : MeshObjState)
      ({ verts := [{ select := false, groups := [((0 : ℕ), (1 : ℚ))] }], activeGroup := 0, toolWeight := 1, groupNames := [] } : MeshObjState)
      (by decide) rfl).2.2.2 0 (by decide)).1

/-- C7: in the resym-vertex-weights, resym-mesh-apply and import-groups
operators the `open`/`readlines`/`eval` phases are not wrapped in any
handler: a missing file surfaces as the `IOError` of `open`, and a first
line that does not parse as the expected literal surfaces as the `eval`
error; in either case the operator aborts with that error — it returns no
finished status and performs no repair or validation of the loaded
data.  (For import-groups this holds for both of its two read phases.) -/
theorem operators_propagate_read_errors
    (parseMap : String → Option (List (ℕ × ℕ))) (st : MeshObjState)
    (sel : Bool) (side : String) (flags : List Bool) (co : List Vec3)
    (parse1 : String → Option (List (List (ℕ × ℚ × String)) × List String))
    (parse2 : String → Option (List (ℕ × ℕ × ℚ)))
    (line0 line1 : String) (rest : List String)
    (vertlistr : List (List (ℕ × ℚ × String))) (grouplist : List String)
    (hbad : parseMap line0 = none)
    (hp1bad : parse1 line0 = none)
    (hp1ok : parse1 line1 = some (vertlistr, grouplist))
    (hp2bad : parse2 line0 = none) :
    (resymVertexGroups_execute none parseMap st = .error .ioError ∧
        resymVertexGroups_execute (some (line0 :: rest)) parseMap st = .error .parseError) ∧
      (OscResymMesh_execute none parseMap sel side flags co = .error .ioError ∧
        OscResymMesh_execute (some (line0 :: rest)) parseMap sel side flags co =
          .error .parseError) ∧
      (OscImportVG_execute none parse1 (some (line1 :: rest)) parse2 st = .error .ioError ∧
        OscImportVG_execute (some (line0 :: rest)) parse1 (some (line1 :: rest)) parse2 st =
          .error .parseError ∧
        OscImportVG_execute (some (line1 :: rest)) parse1 none parse2 st = .error .ioError ∧
        OscImportVG_execute (some (line1 :: rest)) parse1 (some (line0 :: rest)) parse2 st =
          .error .parseError) := by
  refine ⟨⟨rfl, ?_⟩, ⟨rfl, ?_⟩, ⟨rfl, ?_, ?_, ?_⟩⟩
  · rw [resymVertexGroups_execute, hbad]
  · rw [OscResymMesh_execute, hbad]
  · rw [OscImportVG_execute, hp1bad]
  · rw [OscImportVG_execute, hp1ok]
  · simp only [OscImportVG_execute, hp1ok, hp2bad]

/-- C7 witness: concrete parsers that reject the line `"bad"`, evaluated
on a concrete state. -/
theorem operators_propagate_read_errors_witness :
    resymVertexGroups_execute (some ["bad"]) (fun _ => none)
        { verts := [], activeGroup := 0, toolWeight := 1, groupNames := [] } =
      .error .parseError :=
  (operators_propagate_read_errors (fun _ => none)
      { verts := [], activeGroup := 0, toolWeight := 1, groupNames := [] }
      false "+-" [] []
      (fun s => if s = "ok" then some (([], []) : List (List (ℕ × ℚ × String)) × List String) else none)
      (fun _ => none) "bad" "ok" [] [] []
      rfl (by simp) (by simp) rfl).1.2
